import Mathlib

/-!
Shallow embedding of the etna `Pipeline` backtesting core
(`etna/pipeline/pipeline.py`): cross-validation fold generation,
input validation, per-fold execution, parallel collection and
metric aggregation, together with proofs about the embedding.

External collaborators (`TSDataset`, `Model`, `Transform`, `Metric`,
`joblib.Parallel`, pandas aggregation) are not part of the repository
sources; their behaviour is modelled from the specification, as noted
on each such definition.  Metric values are modelled as rationals.
-/

set_option maxHeartbeats 1000000

/-- Errors surfaced by the backtesting core.  The Python code raises
`ValueError` (validation), `KeyError` (enum lookup by name),
`IndexError` (sequence indexing) or propagates an arbitrary worker
exception; the specification groups the validation-time ones under
`ConfigurationError`. -/
inductive BacktestError where
  | invalidNFolds (n : Int)
  | shortSeries (segment : String)
  | emptyMetrics
  | wrongMetricMode (name : String)
  | keyErrorMode (mode : String)
  | indexError
  | foldError (msg : String)
  deriving Repr, DecidableEq

/-- Decidable equality for `Except`, used to evaluate the embedding on
concrete inputs. -/
def exceptDecEq {ε α : Type} [DecidableEq ε] [DecidableEq α] :
    (a b : Except ε α) → Decidable (a = b)
  | .ok x, .ok y =>
    if h : x = y then .isTrue (by rw [h]) else .isFalse (fun hc => h (Except.ok.inj hc))
  | .ok _, .error _ => .isFalse (fun hc => Except.noConfusion hc)
  | .error _, .ok _ => .isFalse (fun hc => Except.noConfusion hc)
  | .error e, .error f =>
    if h : e = f then .isTrue (by rw [h]) else .isFalse (fun hc => h (Except.error.inj hc))

instance {ε α : Type} [DecidableEq ε] [DecidableEq α] : DecidableEq (Except ε α) :=
  exceptDecEq

/-- Modelled from the spec: `TimeSeriesDataset` (external collaborator) is
an ordered timestamp index shared by a set of named segments, each
segment carrying a `target` series aligned with the shared index (pandas
wide format), so every segment's target length equals the index length. -/
structure TSDataset where
  index : List Int
  segments : List String
  deriving Repr, DecidableEq

/-- Python sequence indexing as used on `ts.index`: a negative index
counts from the end (`xs[-1]` is the last element); an index that is
still out of range raises `IndexError`. -/
def pyGet (l : List Int) (i : Int) : Except BacktestError Int :=
  let j : Int := if i < 0 then i + l.length else i
  if h : 0 ≤ j ∧ j < l.length then .ok (l.get ⟨j.toNat, by omega⟩)
  else .error .indexError

/-- Modelled from the spec: `TSDataset.train_test_split` slices the
dataset into the closed timestamp ranges `[train_start, train_end]` and
`[test_start, test_end]`, returning two fresh datasets over the same
segments. -/
def TSDataset.train_test_split (ts : TSDataset)
    (train_start train_end test_start test_end : Int) : TSDataset × TSDataset :=
  (⟨ts.index.filter (fun t => decide (train_start ≤ t ∧ t ≤ train_end)), ts.segments⟩,
   ⟨ts.index.filter (fun t => decide (test_start ≤ t ∧ t ≤ test_end)), ts.segments⟩)

/-- Enum for different cross-validation modes (`CrossValidationMode`). -/
inductive CrossValidationMode where
  | expand
  | constant
  deriving Repr, DecidableEq

/-- Modelled from Python string semantics: `mode.lower()` lower-cases
every character (ASCII suffices for the mode names involved). -/
def pyLower (s : String) : String := ⟨s.data.map Char.toLower⟩

/-- Lookup `CrossValidationMode[mode.lower()]`: enum member access by
(lower-cased) name; an unknown name raises `KeyError`. -/
def CrossValidationMode.ofString (mode : String) : Except BacktestError CrossValidationMode :=
  if pyLower mode = "expand" then .ok .expand
  else if pyLower mode = "constant" then .ok .constant
  else .error (.keyErrorMode mode)

/-- The four boundary indices computed in the loop body of
`_generate_folds_datasets` for a given `offset`, with
`min_timestamp_idx = 0` and `max_timestamp_idx = len(timestamps)`. -/
structure FoldBorders where
  min_train_idx : Int
  max_train_idx : Int
  min_test_idx : Int
  max_test_idx : Int
  deriving Repr, DecidableEq

/-- Border-index computation of `_generate_folds_datasets`:
`min_train_idx = min_timestamp_idx + (n_folds - offset) * horizon * constant_history_length`,
`max_train_idx = max_timestamp_idx - horizon * offset - 1`,
`min_test_idx = max_train_idx + 1`, `max_test_idx = max_train_idx + horizon`. -/
def foldBorders (maxTimestampIdx n_folds horizon constant_history_length offset : Nat) :
    FoldBorders :=
  let min_train_idx : Int := 0 + ((n_folds - offset) * horizon * constant_history_length : Nat)
  let max_train_idx : Int := (maxTimestampIdx : Int) - (horizon : Int) * (offset : Int) - 1
  { min_train_idx := min_train_idx
    max_train_idx := max_train_idx
    min_test_idx := max_train_idx + 1
    max_test_idx := max_train_idx + (horizon : Int) }

/-- One iteration of the fold-generation loop: compute the border
indices, read the corresponding timestamps with Python indexing, and
split the dataset at those timestamps. -/
def foldFor (ts : TSDataset) (n_folds horizon constant_history_length offset : Nat) :
    Except BacktestError (TSDataset × TSDataset) := do
  let timestamps := ts.index
  let b := foldBorders timestamps.length n_folds horizon constant_history_length offset
  let min_train ← pyGet timestamps b.min_train_idx
  let max_train ← pyGet timestamps b.max_train_idx
  let min_test ← pyGet timestamps b.min_test_idx
  let max_test ← pyGet timestamps b.max_test_idx
  pure (ts.train_test_split min_train max_train min_test max_test)

/-- Value of `constant_history_length` chosen for each mode in
`_generate_folds_datasets`: 0 for `expand`, 1 for `constant`. -/
def chlOf : CrossValidationMode → Nat
  | .expand => 0
  | .constant => 1

/-- Embedding of `Pipeline._generate_folds_datasets`: resolve the mode
through `CrossValidationMode[mode.lower()]`, set
`constant_history_length` to 0 (`expand`) or 1 (`constant`), then for
`offset` in `range(n_folds, 0, -1)` produce one `(train, test)` pair.
The Python generator is consumed eagerly by `backtest`, so it is
modelled as the list of all produced pairs. -/
def generate_folds_datasets (ts : TSDataset) (n_folds horizon : Nat) (mode : String) :
    Except BacktestError (List (TSDataset × TSDataset)) := do
  let m ← CrossValidationMode.ofString mode
  let constant_history_length : Nat := chlOf m
  ((List.range n_folds).map (fun f => n_folds - f)).mapM
    (foldFor ts n_folds horizon constant_history_length)

/-- Embedding of `Pipeline._validate_backtest_n_folds`. -/
def validate_backtest_n_folds (n_folds : Int) : Except BacktestError Unit :=
  if n_folds < 1 then .error (.invalidNFolds n_folds) else .ok ()

/-- The per-segment loop of `_validate_backtest_dataset`: in the wide
format `ts[:, segment, "target"]` has one row per entry of the shared
index, so its length is the index length for every segment. -/
def checkSegmentsLength (indexLen : Nat) (minRequired : Int) :
    List String → Except BacktestError Unit
  | [] => .ok ()
  | s :: rest =>
    if (indexLen : Int) < minRequired then .error (.shortSeries s)
    else checkSegmentsLength indexLen minRequired rest

/-- Embedding of `Pipeline._validate_backtest_dataset` with
`min_required_length = horizon * n_folds`. -/
def validate_backtest_dataset (ts : TSDataset) (n_folds : Int) (horizon : Nat) :
    Except BacktestError Unit :=
  checkSegmentsLength ts.index.length ((horizon : Int) * n_folds) ts.segments

/-- The metric aggregation modes (`MetricAggregationMode`): `per_segment`
or the overall mode (called "macro" in the library). -/
inductive MetricAggregationMode where
  | per_segment
  | overall
  deriving Repr, DecidableEq

/-- Modelled from the spec: a `Metric` collaborator carries a name, an
aggregation mode, and a per-segment scoring function
`(y_true, y_pred, segment) -> value`. -/
structure Metric where
  name : String
  mode : MetricAggregationMode
  eval : TSDataset → TSDataset → String → ℚ

/-- The metric-mode loop of `_validate_backtest_metrics`: the first
metric not in per-segment mode is named in the error. -/
def checkMetricsModes : List Metric → Except BacktestError Unit
  | [] => .ok ()
  | m :: rest =>
    if m.mode = MetricAggregationMode.per_segment then checkMetricsModes rest
    else .error (.wrongMetricMode m.name)

/-- Embedding of `Pipeline._validate_backtest_metrics`. -/
def validate_backtest_metrics (metrics : List Metric) : Except BacktestError Unit :=
  if metrics.isEmpty then .error .emptyMetrics else checkMetricsModes metrics

/-- Modelled from the spec: the external forecasting `Model`
collaborator — an abstract internal state together with `fit` (a state
transition that may fail) and `forecast` (produce predictions from the
future dataset; may fail). -/
structure Model where
  state : Nat
  fitFn : Nat → TSDataset → Except String Nat
  forecastFn : Nat → TSDataset → Except String TSDataset

/-- Modelled from the spec: `ts.fit_transform(transforms)` applies the
ordered transform chain to the dataset. -/
def TSDataset.fit_transform (ts : TSDataset) (transforms : List (TSDataset → TSDataset)) :
    TSDataset :=
  transforms.foldl (fun d t => t d) ts

/-- Modelled from the spec: `ts.make_future(horizon)` extends the
dataset `horizon` steps past its last timestamp at the fixed unit
frequency. -/
def TSDataset.make_future (ts : TSDataset) (horizon : Nat) : TSDataset :=
  ⟨(List.range horizon).map (fun i => ts.index.getLast?.getD 0 + 1 + (i : Int)), ts.segments⟩

/-- Embedding of the `Pipeline` object: a model, an ordered transform
sequence, the forecasting horizon, and the dataset bound by `fit`. -/
structure Pipeline where
  model : Model
  transforms : List (TSDataset → TSDataset)
  horizon : Nat
  ts : Option TSDataset

/-- Embedding of `Pipeline.fit`: bind `self.ts`, fit-transform it, then
fit the model on the transformed data. -/
def Pipeline.fit (p : Pipeline) (ts : TSDataset) : Except String Pipeline := do
  let ts' := ts.fit_transform p.transforms
  let newState ← p.model.fitFn p.model.state ts'
  pure { p with ts := some ts', model := { p.model with state := newState } }

/-- Embedding of `Pipeline.forecast`: `future = self.ts.make_future(horizon)`;
`predictions = self.model.forecast(future)`. -/
def Pipeline.forecast (p : Pipeline) : Except String TSDataset :=
  match p.ts with
  | none => .error "pipeline is not fitted"
  | some ts => p.model.forecastFn p.model.state (ts.make_future p.horizon)

/-- One fold's record as assembled by `_run_fold`: train/test time
ranges (`index.min()` / `index.max()`), the forecast, and the computed
metrics table (one row per segment, one column per metric). -/
structure FoldRecord where
  train_start : Option Int
  train_end : Option Int
  test_start : Option Int
  test_end : Option Int
  forecast : TSDataset
  metrics : List (String × List ℚ)
  deriving DecidableEq

/-- Modelled from the spec: `compute_metrics(metrics, y_true, y_pred)`
arranged as the rows of `pd.DataFrame(fold["metrics"])` — one row per
segment of `y_true`, one column per metric. -/
def compute_metrics (metrics : List Metric) (y_true y_pred : TSDataset) :
    List (String × List ℚ) :=
  y_true.segments.map (fun s => (s, metrics.map (fun m => m.eval y_true y_pred s)))

/-- Embedding of `Pipeline._run_fold`: deep-copy the pipeline (a value
copy here), fit the copy on `train`, forecast, and assemble the fold
record; any fit/forecast failure propagates. -/
def Pipeline.run_fold (self : Pipeline) (train test : TSDataset)
    (_fold_number : Nat) (metrics : List Metric) : Except BacktestError FoldRecord := do
  let pipeline := self
  let pipeline ← (pipeline.fit train).mapError BacktestError.foldError
  let forecast ← pipeline.forecast.mapError BacktestError.foldError
  pure { train_start := train.index.min?
         train_end := train.index.max?
         test_start := test.index.min?
         test_end := test.index.max?
         forecast := forecast
         metrics := compute_metrics metrics test forecast }

/-- One row of the non-aggregated backtest metrics table: a segment, the
fold number tag, and one value per metric. -/
structure MetricsRow where
  segment : String
  fold_number : Nat
  values : List ℚ
  deriving DecidableEq

/-- One row of the aggregated backtest metrics table: the fold-number
column is dropped. -/
structure AggMetricsRow where
  segment : String
  values : List ℚ
  deriving DecidableEq

/-- Comparison used by `metrics_df.sort_values(["segment", fold_column])`. -/
def metricsRowLe (r₁ r₂ : MetricsRow) : Bool :=
  decide (r₁.segment < r₂.segment) ||
    (decide (r₁.segment = r₂.segment) && decide (r₁.fold_number ≤ r₂.fold_number))

/-- The rows contributed by one fold to the metrics table, tagged with
its fold number. -/
def foldMetricsRows (i : Nat) (fold : FoldRecord) : List MetricsRow :=
  fold.metrics.map (fun p => { segment := p.1, fold_number := i, values := p.2 })

/-- Modelled from pandas semantics: number of value columns of a group
of rows (they are uniform in the backtest: one per metric). -/
def columnWidth (vs : List (List ℚ)) : Nat :=
  (vs.map List.length).foldr max 0

/-- Modelled from pandas semantics: the arithmetic mean of each value
column over a group of rows. -/
def meanColumns (vs : List (List ℚ)) : List ℚ :=
  (List.range (columnWidth vs)).map
    (fun j => (vs.map (fun v => v.getD j 0)).sum / (vs.length : ℚ))

/-- Modelled from pandas semantics:
`groupby("segment").mean().reset_index().drop(fold_column, axis=1)` —
one row per distinct segment (ascending on the sorted input), averaging
the numeric columns over that segment's rows and dropping the
fold-number column. -/
def groupbyMeanMetrics (rows : List MetricsRow) : List AggMetricsRow :=
  (rows.map MetricsRow.segment).dedup.map
    (fun k =>
      { segment := k
        values := meanColumns ((rows.filter (fun r => decide (r.segment = k))).map
          MetricsRow.values) })

/-- Embedding of `Pipeline._get_backtest_metrics`: append every fold's
rows tagged with the fold number, sort by `(segment, fold_number)`, and
aggregate per segment when requested. -/
def get_backtest_metrics (folds : List FoldRecord) (aggregate_metrics : Bool) :
    List MetricsRow ⊕ List AggMetricsRow :=
  let rows := (folds.enum.map (fun p => foldMetricsRows p.1 p.2)).flatten
  let sorted := rows.mergeSort metricsRowLe
  if aggregate_metrics then .inr (groupbyMeanMetrics sorted) else .inl sorted

/-- One row of `fold_info_df`: the four boundary timestamps and the fold
number. -/
structure FoldInfoRow where
  train_start_time : Option Int
  train_end_time : Option Int
  test_start_time : Option Int
  test_end_time : Option Int
  fold_number : Nat
  deriving DecidableEq

/-- Embedding of `Pipeline._get_fold_info`. -/
def get_fold_info (folds : List FoldRecord) : List FoldInfoRow :=
  folds.enum.map (fun p =>
    { train_start_time := p.2.train_start
      train_end_time := p.2.train_end
      test_start_time := p.2.test_start
      test_end_time := p.2.test_end
      fold_number := p.1 })

/-- Embedding of `Pipeline._get_backtest_forecasts`: the per-fold
forecasts, each tagged with its producing fold number. -/
def get_backtest_forecasts (folds : List FoldRecord) : List (Nat × TSDataset) :=
  folds.enum.map (fun p => (p.1, p.2.forecast))

/-- Modelled from the spec: the worker pool (`joblib.Parallel`) may
complete the dispatched fold tasks in any order `order`; results are
collected keyed by task index (ascending dispatch order) and the first
failure in that order is surfaced. -/
def poolRun (tasks : List (Except BacktestError FoldRecord)) (order : List Nat) :
    Except BacktestError (List FoldRecord) :=
  let completed := order.map (fun i => (i, tasks.getD i (.error .indexError)))
  let collected := completed.mergeSort (fun a b => decide (a.1 ≤ b.1))
  (collected.map Prod.snd).mapM id

/-- The list of fold tasks dispatched by `backtest`: one `_run_fold`
call per enumerated `(train, test)` pair. -/
def backtestTasks (self : Pipeline) (metrics : List Metric)
    (foldsDs : List (TSDataset × TSDataset)) : List (Except BacktestError FoldRecord) :=
  foldsDs.enum.map (fun p => self.run_fold p.2.1 p.2.2 p.1 metrics)

/-- Embedding of `Pipeline.backtest`: validate `n_folds`, the dataset
lengths and the metrics (in that order), generate the folds, run every
fold over the pool (with completion order `order`), and build the three
result tables. -/
def Pipeline.backtest (self : Pipeline) (ts : TSDataset) (metrics : List Metric)
    (n_folds : Int) (mode : String) (aggregate_metrics : Bool) (order : List Nat) :
    Except BacktestError
      ((List MetricsRow ⊕ List AggMetricsRow) × List (Nat × TSDataset) × List FoldInfoRow) := do
  validate_backtest_n_folds n_folds
  validate_backtest_dataset ts n_folds self.horizon
  validate_backtest_metrics metrics
  let foldsDs ← generate_folds_datasets ts n_folds.toNat self.horizon mode
  let records ← poolRun (backtestTasks self metrics foldsDs) order
  let metrics_df := get_backtest_metrics records aggregate_metrics
  let forecast_df := get_backtest_forecasts records
  let fold_info_df := get_fold_info records
  pure (metrics_df, forecast_df, fold_info_df)

/-- Boundary-index formula as written in the specification: for fold `f`
(0-indexed, `f = n_folds - offset`), `max_train_idx = T - horizon*offset - 1`,
`min_train_idx = f * horizon * constant_history_flag`,
`min_test_idx = max_train_idx + 1`, `max_test_idx = min_test_idx + horizon - 1`. -/
def specFoldBorders (T n_folds horizon constant_history_flag offset : Nat) : FoldBorders :=
  let f := n_folds - offset
  let max_train_idx : Int := (T : Int) - (horizon : Int) * (offset : Int) - 1
  let min_test_idx : Int := max_train_idx + 1
  { min_train_idx := ((f * horizon * constant_history_flag : Nat) : Int)
    max_train_idx := max_train_idx
    min_test_idx := min_test_idx
    max_test_idx := min_test_idx + (horizon : Int) - 1 }

/-- Train/test pair of fold `f` (0-indexed) expressed as contiguous
slices of the dataset index; `generate_folds_datasets` produces exactly
these when the dataset index is strictly increasing and strictly longer
than `horizon * n_folds`. -/
def foldSlices (ts : TSDataset) (n_folds horizon chl f : Nat) : TSDataset × TSDataset :=
  (⟨(ts.index.drop (f * horizon * chl)).take
      (ts.index.length - horizon * (n_folds - f) - f * horizon * chl), ts.segments⟩,
   ⟨(ts.index.drop (ts.index.length - horizon * (n_folds - f))).take horizon, ts.segments⟩)

/-- The fold invariant stated in the specification: the test range
starts at the timestamp immediately following the train range's end
along the dataset's timestamp index (no gap, no overlap). -/
def adjacentSplit (ts train test : TSDataset) : Prop :=
  ∃ k, ∃ hk : k + 1 < ts.index.length,
    train.index.getLast? = some (ts.index.get ⟨k, by omega⟩) ∧
    test.index.head? = some (ts.index.get ⟨k + 1, hk⟩)

/-- Pipeline object as stored on the heap in the reference-semantics
model: `self.ts` is a reference to a dataset object (Python aliasing). -/
structure StorePipeline where
  model : Model
  transforms : List (TSDataset → TSDataset)
  horizon : Nat
  tsRef : Option Nat

/-- A heap of pipeline objects and dataset objects, making Python's
reference/mutation semantics explicit for the frame property of
`_run_fold`. -/
structure Store where
  pipelines : List StorePipeline
  datasets : List TSDataset

def defaultModel : Model :=
  { state := 0, fitFn := fun s _ => .ok s, forecastFn := fun _ t => .ok t }

def defaultStorePipeline : StorePipeline :=
  { model := defaultModel, transforms := [], horizon := 0, tsRef := none }

def Store.getP (st : Store) (r : Nat) : StorePipeline :=
  st.pipelines.getD r defaultStorePipeline

def Store.setP (st : Store) (r : Nat) (p : StorePipeline) : Store :=
  { st with pipelines := st.pipelines.set r p }

def Store.allocP (st : Store) (p : StorePipeline) : Store × Nat :=
  ({ st with pipelines := st.pipelines ++ [p] }, st.pipelines.length)

def Store.getD (st : Store) (r : Nat) : TSDataset :=
  st.datasets.getD r ⟨[], []⟩

def Store.setD (st : Store) (r : Nat) (d : TSDataset) : Store :=
  { st with datasets := st.datasets.set r d }

/-- Store-level reading of `pipeline.forecast()`: follow the alias in
`self.ts` to the dataset object on the heap, extend it into the future
and forecast from it. -/
def forecastS (st : Store) (q : StorePipeline) : Except String TSDataset :=
  match q.tsRef with
  | none => .error "pipeline is not fitted"
  | some r => q.model.forecastFn q.model.state ((st.getD r).make_future q.horizon)

/-- Store-level translation of `Pipeline._run_fold` with Python
reference semantics made explicit: `deepcopy(self)` allocates a fresh
pipeline object; `pipeline.fit(train)` aliases `pipeline.ts` to the
train object, fit-transforms that object in place and fits the model;
`pipeline.forecast()` reads through the alias.  The template reference
`selfRef` is read but never written. -/
def runFoldS (st : Store) (selfRef trainRef testRef : Nat) (metrics : List Metric) :
    Except String (Store × FoldRecord) := do
  let (st, pipelineRef) := st.allocP (st.getP selfRef)
  let st := st.setP pipelineRef { st.getP pipelineRef with tsRef := some trainRef }
  let st := st.setD trainRef
    ((st.getD trainRef).fit_transform (st.getP pipelineRef).transforms)
  let p := st.getP pipelineRef
  let newState ← p.model.fitFn p.model.state (st.getD trainRef)
  let st := st.setP pipelineRef { p with model := { p.model with state := newState } }
  let forecast ← forecastS st (st.getP pipelineRef)
  let train := st.getD trainRef
  let test := st.getD testRef
  pure (st,
    { train_start := train.index.min?
      train_end := train.index.max?
      test_start := test.index.min?
      test_end := test.index.max?
      forecast := forecast
      metrics := compute_metrics metrics test forecast })

/-- Frame property of one fold execution: on success, the template
pipeline object (hence its model, transforms and horizon) and the
original backtest dataset object are unchanged on the heap. -/
def foldPreservesFrame (st : Store) (selfRef dsRef : Nat) :
    Except String (Store × FoldRecord) → Prop
  | .ok (st', _) =>
    st'.getP selfRef = st.getP selfRef ∧
    (st'.getP selfRef).model = (st.getP selfRef).model ∧
    (st'.getP selfRef).transforms = (st.getP selfRef).transforms ∧
    (st'.getP selfRef).horizon = (st.getP selfRef).horizon ∧
    st'.getD dsRef = st.getD dsRef
  | .error _ => True

theorem except_bind_ok {ε α β : Type} (a : α) (f : α → Except ε β) :
    (Except.ok a : Except ε α) >>= f = f a := rfl

theorem except_bind_error {ε α β : Type} (e : ε) (f : α → Except ε β) :
    (Except.error e : Except ε α) >>= f = .error e := rfl

theorem slice_length {α : Type} (l : List α) (a m : Nat) (h : a + m ≤ l.length) :
    ((l.drop a).take m).length = m := by
  simp only [List.length_take, List.length_drop]
  omega

theorem slice_head {α : Type} (l : List α) (a m : Nat) (hm : 1 ≤ m) (_ha : a < l.length) :
    ((l.drop a).take m).head? = l[a]? := by
  rw [List.head?_take, if_neg (by omega), List.head?_eq_getElem?, List.getElem?_drop,
    Nat.add_zero]

theorem slice_getLast {α : Type} (l : List α) (a m : Nat) (hm : 1 ≤ m)
    (h : a + m ≤ l.length) :
    ((l.drop a).take m).getLast? = l[a + m - 1]? := by
  rw [List.getLast?_eq_getElem?, slice_length l a m h, List.getElem?_take,
    if_pos (by omega), List.getElem?_drop]
  congr 1
  omega

theorem filter_closed_range_eq_slice (l : List Int) (hs : List.Sorted (· < ·) l)
    (i j : Nat) (hi : i < l.length) (hj : j < l.length) :
    l.filter (fun t => decide (l.get ⟨i, hi⟩ ≤ t ∧ t ≤ l.get ⟨j, hj⟩)) =
      (l.drop i).take (j + 1 - i) := by
  have hmono : StrictMono l.get := hs.get_strictMono
  set p : Int → Bool := fun t => decide (l.get ⟨i, hi⟩ ≤ t ∧ t ≤ l.get ⟨j, hj⟩) with hp
  have hsplit : l.filter p =
      (l.take i).filter p ++ ((l.drop i).take (j + 1 - i)).filter p ++
        ((l.drop i).drop (j + 1 - i)).filter p := by
    conv_lhs => rw [← List.take_append_drop i l]
    rw [List.filter_append]
    conv_lhs => rw [← List.take_append_drop (j + 1 - i) (l.drop i)]
    rw [List.filter_append, List.append_assoc]
  have hA : (l.take i).filter p = [] := by
    rw [List.filter_eq_nil_iff]
    intro a ha
    obtain ⟨n, hn, rfl⟩ := List.mem_iff_getElem.mp ha
    have hn' : n < i := by
      have := hn
      simp only [List.length_take] at this
      omega
    have hnl : n < l.length := by omega
    have hlt : l.get ⟨n, hnl⟩ < l.get ⟨i, hi⟩ := hmono (by exact hn')
    rw [List.getElem_take]
    simp only [hp, decide_eq_true_eq, not_and, not_le]
    intro hle
    exfalso
    have : l.get ⟨i, hi⟩ ≤ l.get ⟨n, hnl⟩ := by
      simpa [List.get_eq_getElem] using hle
    exact absurd hlt (not_lt.mpr this)
  have hB : ((l.drop i).take (j + 1 - i)).filter p = (l.drop i).take (j + 1 - i) := by
    rw [List.filter_eq_self]
    intro a ha
    obtain ⟨n, hn, rfl⟩ := List.mem_iff_getElem.mp ha
    have hlen : n < j + 1 - i ∧ i + n < l.length := by
      have := hn
      simp only [List.length_take, List.length_drop] at this
      omega
    have hij : i ≤ j := by omega
    rw [List.getElem_take, List.getElem_drop]
    have h1 : l.get ⟨i, hi⟩ ≤ l.get ⟨i + n, hlen.2⟩ :=
      hmono.monotone (by simp [Fin.mk_le_mk])
    have h2 : l.get ⟨i + n, hlen.2⟩ ≤ l.get ⟨j, hj⟩ :=
      hmono.monotone (by simp [Fin.mk_le_mk]; omega)
    simp only [hp, decide_eq_true_eq]
    exact ⟨by simpa [List.get_eq_getElem] using h1, by simpa [List.get_eq_getElem] using h2⟩
  have hC : ((l.drop i).drop (j + 1 - i)).filter p = [] := by
    rw [List.drop_drop, List.filter_eq_nil_iff]
    intro a ha
    obtain ⟨n, hn, rfl⟩ := List.mem_iff_getElem.mp ha
    have hnl : i + (j + 1 - i) + n < l.length := by
      have := hn
      simp only [List.length_drop] at this
      omega
    have hgt : l.get ⟨j, hj⟩ < l.get ⟨i + (j + 1 - i) + n, hnl⟩ := hmono (by
      show j < i + (j + 1 - i) + n
      omega)
    rw [List.getElem_drop]
    simp only [hp, decide_eq_true_eq, not_and, not_le]
    intro _
    simpa [List.get_eq_getElem] using hgt
  rw [hsplit, hA, hB, hC]
  simp

theorem pyGet_ok_of_nonneg (l : List Int) (i : Int) (h0 : 0 ≤ i) (h1 : i < l.length) :
    pyGet l i = .ok (l.get ⟨i.toNat, by omega⟩) := by
  have hneg : ¬ i < 0 := by omega
  simp only [pyGet, hneg, if_false]
  rw [dif_pos ⟨h0, h1⟩]

theorem pyGet_natCast (l : List Int) (a : Nat) (h1 : a < l.length) :
    pyGet l (a : Int) = .ok (l.get ⟨a, h1⟩) := by
  rw [pyGet_ok_of_nonneg l (a : Int) (by positivity) (by exact_mod_cast h1)]
  congr 1

theorem pyGet_ok_of_neg (l : List Int) (i : Int) (hneg : i < 0) (h : 0 ≤ i + l.length) :
    pyGet l i = .ok (l.get ⟨(i + l.length).toNat, by omega⟩) := by
  simp only [pyGet, hneg, if_true]
  rw [dif_pos ⟨h, by omega⟩]

theorem foldFor_eq_slices (ts : TSDataset) (hs : List.Sorted (· < ·) ts.index)
    (n h chl offset : Nat) (hchl : chl ≤ 1) (hh : 1 ≤ h)
    (ho1 : 1 ≤ offset) (ho2 : offset ≤ n) (hT : h * n + 1 ≤ ts.index.length) :
    foldFor ts n h chl offset =
      .ok (⟨(ts.index.drop ((n - offset) * h * chl)).take
              (ts.index.length - h * offset - (n - offset) * h * chl), ts.segments⟩,
           ⟨(ts.index.drop (ts.index.length - h * offset)).take h, ts.segments⟩) := by
  have hP1 : h * offset ≤ h * n := Nat.mul_le_mul_left h ho2
  have hP2 : (n - offset) * h * chl ≤ (n - offset) * h :=
    le_trans (Nat.mul_le_mul_left ((n - offset) * h) hchl) (by simp)
  have hP3 : (n - offset) * h = h * n - h * offset := by
    rw [Nat.mul_comm, Nat.mul_sub]
  have hq : h ≤ h * offset := le_trans (by simp) (Nat.mul_le_mul_left h ho1)
  have ha_lt : (n - offset) * h * chl < ts.index.length := by omega
  have hb_lt : ts.index.length - h * offset - 1 < ts.index.length := by omega
  have hc_lt : ts.index.length - h * offset < ts.index.length := by omega
  have hd_lt : ts.index.length - h * offset - 1 + h < ts.index.length := by omega
  have eb : (ts.index.length : Int) - (h : Int) * (offset : Int) - 1 =
      ((ts.index.length - h * offset - 1 : Nat) : Int) := by
    omega
  have ec : ((ts.index.length - h * offset - 1 : Nat) : Int) + 1 =
      ((ts.index.length - h * offset : Nat) : Int) := by
    omega
  have ed : ((ts.index.length - h * offset - 1 : Nat) : Int) + (h : Int) =
      ((ts.index.length - h * offset - 1 + h : Nat) : Int) := by
    omega
  simp only [foldFor, foldBorders, zero_add]
  rw [eb, ec, ed]
  rw [pyGet_natCast ts.index _ ha_lt, except_bind_ok,
    pyGet_natCast ts.index _ hb_lt, except_bind_ok,
    pyGet_natCast ts.index _ hc_lt, except_bind_ok,
    pyGet_natCast ts.index _ hd_lt, except_bind_ok]
  simp only [TSDataset.train_test_split]
  rw [filter_closed_range_eq_slice ts.index hs _ _ ha_lt hb_lt,
    filter_closed_range_eq_slice ts.index hs _ _ hc_lt hd_lt]
  have e1 : ts.index.length - h * offset - 1 + 1 - (n - offset) * h * chl =
      ts.index.length - h * offset - (n - offset) * h * chl := by omega
  have e2 : ts.index.length - h * offset - 1 + h + 1 - (ts.index.length - h * offset) = h := by
    omega
  rw [e1, e2]
  rfl

theorem mapM_except_ok_of_forall {ε α β : Type} (g : α → Except ε β) (k : α → β) :
    ∀ (xs : List α), (∀ x ∈ xs, g x = .ok (k x)) → xs.mapM g = .ok (xs.map k) := by
  intro xs
  induction xs with
  | nil => intro _; rfl
  | cons x rest ih =>
    intro hall
    rw [List.mapM_cons, hall x (by simp), List.map_cons,
      ih (fun y hy => hall y (by simp [hy]))]
    rfl

theorem generate_folds_eq_map_slices (ts : TSDataset) (hs : List.Sorted (· < ·) ts.index)
    (n h : Nat) (mode : String) (m : CrossValidationMode)
    (hmode : CrossValidationMode.ofString mode = .ok m)
    (hh : 1 ≤ h) (_hn : 1 ≤ n) (hT : h * n + 1 ≤ ts.index.length) :
    generate_folds_datasets ts n h mode =
      .ok ((List.range n).map (foldSlices ts n h (chlOf m))) := by
  have hchl : chlOf m ≤ 1 := by cases m <;> simp [chlOf]
  have hmain : ((List.range n).map (fun f => n - f)).mapM (foldFor ts n h (chlOf m)) =
      .ok (((List.range n).map (fun f => n - f)).map
        (fun offset => foldSlices ts n h (chlOf m) (n - offset))) := by
    apply mapM_except_ok_of_forall
    intro x hx
    obtain ⟨f, hf, rfl⟩ := List.mem_map.mp hx
    have hf' : f < n := List.mem_range.mp hf
    have hff : n - (n - f) = f := Nat.sub_sub_self (le_of_lt hf')
    rw [foldFor_eq_slices ts hs n h (chlOf m) (n - f) hchl hh (by omega) (by omega) hT]
    simp only [foldSlices, hff]
  simp only [generate_folds_datasets, hmode, except_bind_ok]
  rw [hmain, List.map_map]
  congr 1
  apply List.map_congr_left
  intro f hf
  have hff : n - (n - f) = f := Nat.sub_sub_self (le_of_lt (List.mem_range.mp hf))
  simp [Function.comp, hff]

theorem getElem?_eq_some_get {α : Type} (l : List α) (i j : Nat) (hj : j < l.length)
    (hij : i = j) : l[i]? = some (l.get ⟨j, hj⟩) := by
  subst hij
  rw [List.getElem?_eq_getElem hj]
  simp [List.get_eq_getElem]

/-- C1 (amended): for every `n_folds >= 1`, `horizon >= 1`, strictly
increasing timestamp index, and dataset with strictly more than
`horizon * n_folds` timestamps, `_generate_folds_datasets` yields
exactly `n_folds` `(train, test)` pairs, and for every pair the test
range starts at the timestamp immediately following the train range's
end (no gap, no overlap) and spans exactly `horizon` timestamps.  (The
claim's weaker hypothesis — merely passing backtest validation, i.e.
length at least `horizon * n_folds` — is not enough: see the
counterexample at length exactly `horizon * n_folds`.) -/
theorem generate_folds_yields_nfolds_adjacent_pairs (ts : TSDataset)
    (hs : List.Sorted (· < ·) ts.index) (n h : Nat) (mode : String)
    (m : CrossValidationMode) (hmode : CrossValidationMode.ofString mode = .ok m)
    (hn : 1 ≤ n) (hh : 1 ≤ h) (hT : h * n + 1 ≤ ts.index.length) :
    ∃ folds, generate_folds_datasets ts n h mode = .ok folds ∧
      folds.length = n ∧
      ∀ fp ∈ folds, fp.2.index.length = h ∧ adjacentSplit ts fp.1 fp.2 := by
  refine ⟨_, generate_folds_eq_map_slices ts hs n h mode m hmode hh hn hT, ?_, ?_⟩
  · simp
  · intro fp hfp
    obtain ⟨f, hfmem, rfl⟩ := List.mem_map.mp hfp
    have hf : f < n := List.mem_range.mp hfmem
    have hchl : chlOf m ≤ 1 := by cases m <;> simp [chlOf]
    have hmul1 : h * (n - f) = h * n - h * f := Nat.mul_sub h n f
    have hmul2 : h * f ≤ h * n := Nat.mul_le_mul_left h (le_of_lt hf)
    have hmul3 : f * h * chlOf m ≤ f * h :=
      le_trans (Nat.mul_le_mul_left (f * h) hchl) (by simp)
    have hmul4 : f * h = h * f := Nat.mul_comm f h
    have hmul5 : h ≤ h * (n - f) := by
      calc h = h * 1 := (Nat.mul_one h).symm
        _ ≤ h * (n - f) := Nat.mul_le_mul_left h (by omega)
    simp only [foldSlices, adjacentSplit]
    constructor
    · exact slice_length ts.index _ h (by omega)
    · refine ⟨ts.index.length - h * (n - f) - 1, by omega, ?_, ?_⟩
      · rw [slice_getLast ts.index _ _ (by omega) (by omega)]
        exact getElem?_eq_some_get ts.index _ _ _ (by omega)
      · rw [slice_head ts.index _ h hh (by omega)]
        exact getElem?_eq_some_get ts.index _ _ _ (by omega)

/-- Witness for `generate_folds_yields_nfolds_adjacent_pairs`: a
three-timestamp dataset, `horizon = 1`, `n_folds = 2`. -/
theorem generate_folds_yields_nfolds_adjacent_pairs_witness :
    (List.Sorted (· < ·) (⟨[10, 20, 30], ["s"]⟩ : TSDataset).index ∧
      CrossValidationMode.ofString "expand" = .ok .expand ∧
      1 ≤ 2 ∧ 1 ≤ 1 ∧ 1 * 2 + 1 ≤ (⟨[10, 20, 30], ["s"]⟩ : TSDataset).index.length) ∧
    (∃ folds, generate_folds_datasets ⟨[10, 20, 30], ["s"]⟩ 2 1 "expand" = .ok folds ∧
      folds.length = 2 ∧
      ∀ fp ∈ folds, fp.2.index.length = 1 ∧
        adjacentSplit ⟨[10, 20, 30], ["s"]⟩ fp.1 fp.2) :=
  ⟨⟨by decide, by decide, by decide, by decide, by decide⟩,
   generate_folds_yields_nfolds_adjacent_pairs ⟨[10, 20, 30], ["s"]⟩ (by decide) 2 1
     "expand" .expand (by decide) (by decide) (by decide) (by decide)⟩

/-- Counterexample to C1 as stated: the dataset with a single timestamp
passes backtest validation for `horizon = 1`, `n_folds = 1` (its length
equals `horizon * n_folds`), yet the produced fold has train range and
test range both equal to the whole index — the test range does not
start at the timestamp immediately following the train range's end. -/
theorem generate_folds_boundary_counterexample :
    validate_backtest_dataset ⟨[0], ["s"]⟩ 1 1 = .ok () ∧
    generate_folds_datasets ⟨[0], ["s"]⟩ 1 1 "expand" =
      .ok [(⟨[0], ["s"]⟩, ⟨[0], ["s"]⟩)] ∧
    ¬ adjacentSplit ⟨[0], ["s"]⟩ ⟨[0], ["s"]⟩ ⟨[0], ["s"]⟩ := by
  refine ⟨by decide, by decide, ?_⟩
  rintro ⟨k, hk, -⟩
  simp at hk

theorem foldSlices_train_length (ts : TSDataset) (n h chl f : Nat) (hchl : chl ≤ 1)
    (hf : f < n) (hT : h * n + 1 ≤ ts.index.length) :
    (foldSlices ts n h chl f).1.index.length =
      ts.index.length - h * (n - f) - f * h * chl := by
  simp only [foldSlices]
  apply slice_length
  have hmul1 : h * (n - f) = h * n - h * f := Nat.mul_sub h n f
  have hmul2 : h * f ≤ h * n := Nat.mul_le_mul_left h (le_of_lt hf)
  have hmul3 : f * h * chl ≤ f * h :=
    le_trans (Nat.mul_le_mul_left (f * h) hchl) (by simp)
  have hmul4 : f * h = h * f := Nat.mul_comm f h
  omega

/-- C2: the boundary indices computed by `_generate_folds_datasets`
equal the specification formula (with `f = n_folds - offset`,
`max_train_idx = T - horizon*offset - 1`,
`min_train_idx = f*horizon*constant_history_flag`,
`min_test_idx = max_train_idx + 1`,
`max_test_idx = min_test_idx + horizon - 1`) for all arguments; and on a
dataset of 100 timestamps with `horizon = 10`, `n_folds = 3`, mode
`expand`, the folds are train `[0,69]`/test `[70,79]`, train
`[0,79]`/test `[80,89]`, train `[0,89]`/test `[90,99]`. -/
theorem fold_borders_match_spec_formula :
    (∀ T n h flag offset, foldBorders T n h flag offset = specFoldBorders T n h flag offset) ∧
    generate_folds_datasets
        ⟨(List.range 100).map (fun i => (i : Int)), ["segment"]⟩ 3 10 "expand" =
      .ok [(⟨(List.range 70).map (fun i => (i : Int)), ["segment"]⟩,
            ⟨(List.range 10).map (fun i => ((70 + i : Nat) : Int)), ["segment"]⟩),
           (⟨(List.range 80).map (fun i => (i : Int)), ["segment"]⟩,
            ⟨(List.range 10).map (fun i => ((80 + i : Nat) : Int)), ["segment"]⟩),
           (⟨(List.range 90).map (fun i => (i : Int)), ["segment"]⟩,
            ⟨(List.range 10).map (fun i => ((90 + i : Nat) : Int)), ["segment"]⟩)] := by
  constructor
  · intro T n h flag offset
    simp only [foldBorders, specFoldBorders]
    congr 1 <;> omega
  · decide

/-- C4 (amended): over the folds produced by `_generate_folds_datasets`
for one dataset with a strictly increasing index and strictly more than
`horizon * n_folds` timestamps (`horizon, n_folds >= 1`): in `constant`
mode the train-set length is the same for every fold, and in `expand`
mode the train-set length strictly increases with the fold index.  (At
exactly `horizon * n_folds` timestamps both parts fail; see the
counterexample.) -/
theorem train_lengths_constant_and_expanding (ts : TSDataset)
    (hs : List.Sorted (· < ·) ts.index) (n h : Nat)
    (hn : 1 ≤ n) (hh : 1 ≤ h) (hT : h * n + 1 ≤ ts.index.length) :
    (∀ folds, generate_folds_datasets ts n h "constant" = .ok folds →
      ∀ i j (hi : i < folds.length) (hj : j < folds.length),
        (folds.get ⟨i, hi⟩).1.index.length = (folds.get ⟨j, hj⟩).1.index.length) ∧
    (∀ folds, generate_folds_datasets ts n h "expand" = .ok folds →
      ∀ i j (hi : i < folds.length) (hj : j < folds.length), i < j →
        (folds.get ⟨i, hi⟩).1.index.length < (folds.get ⟨j, hj⟩).1.index.length) := by
  constructor
  · intro folds hgen i j hi hj
    rw [generate_folds_eq_map_slices ts hs n h "constant" .constant rfl hh hn hT] at hgen
    have hfolds := Except.ok.inj hgen
    subst hfolds
    have hi' : i < n := by simpa using hi
    have hj' : j < n := by simpa using hj
    simp only [List.get_eq_getElem, List.getElem_map, List.getElem_range]
    rw [foldSlices_train_length ts n h (chlOf .constant) i (by simp [chlOf]) hi' hT,
      foldSlices_train_length ts n h (chlOf .constant) j (by simp [chlOf]) hj' hT]
    simp only [chlOf]
    have e1 : h * (n - i) = h * n - h * i := Nat.mul_sub h n i
    have e2 : h * (n - j) = h * n - h * j := Nat.mul_sub h n j
    have e3 : h * i ≤ h * n := Nat.mul_le_mul_left h (le_of_lt hi')
    have e4 : h * j ≤ h * n := Nat.mul_le_mul_left h (le_of_lt hj')
    have e5 : i * h = h * i := Nat.mul_comm i h
    have e6 : j * h = h * j := Nat.mul_comm j h
    simp only [Nat.mul_one]
    omega
  · intro folds hgen i j hi hj hij
    rw [generate_folds_eq_map_slices ts hs n h "expand" .expand rfl hh hn hT] at hgen
    have hfolds := Except.ok.inj hgen
    subst hfolds
    have hi' : i < n := by simpa using hi
    have hj' : j < n := by simpa using hj
    simp only [List.get_eq_getElem, List.getElem_map, List.getElem_range]
    rw [foldSlices_train_length ts n h (chlOf .expand) i (by simp [chlOf]) hi' hT,
      foldSlices_train_length ts n h (chlOf .expand) j (by simp [chlOf]) hj' hT]
    simp only [chlOf]
    have e1 : h * (n - i) = h * n - h * i := Nat.mul_sub h n i
    have e2 : h * (n - j) = h * n - h * j := Nat.mul_sub h n j
    have e4 : h * j ≤ h * n := Nat.mul_le_mul_left h (le_of_lt hj')
    have e7 : h * (i + 1) ≤ h * j := Nat.mul_le_mul_left h (by omega)
    have e8 : h * (i + 1) = h * i + h := Nat.mul_succ h i
    simp only [Nat.mul_zero]
    omega

/-- Witness for `train_lengths_constant_and_expanding`: three
timestamps, `horizon = 1`, `n_folds = 2`. -/
theorem train_lengths_constant_and_expanding_witness :
    (List.Sorted (· < ·) (⟨[0, 1, 2], ["s"]⟩ : TSDataset).index ∧ 1 ≤ 2 ∧ 1 ≤ 1 ∧
      1 * 2 + 1 ≤ (⟨[0, 1, 2], ["s"]⟩ : TSDataset).index.length) ∧
    ((∀ folds, generate_folds_datasets ⟨[0, 1, 2], ["s"]⟩ 2 1 "constant" = .ok folds →
        ∀ i j (hi : i < folds.length) (hj : j < folds.length),
          (folds.get ⟨i, hi⟩).1.index.length = (folds.get ⟨j, hj⟩).1.index.length) ∧
      (∀ folds, generate_folds_datasets ⟨[0, 1, 2], ["s"]⟩ 2 1 "expand" = .ok folds →
        ∀ i j (hi : i < folds.length) (hj : j < folds.length), i < j →
          (folds.get ⟨i, hi⟩).1.index.length < (folds.get ⟨j, hj⟩).1.index.length)) :=
  ⟨⟨by decide, by decide, by decide, by decide⟩,
   train_lengths_constant_and_expanding ⟨[0, 1, 2], ["s"]⟩ (by decide) 2 1
     (by decide) (by decide) (by decide)⟩

/-- Counterexample to C4 as stated: the two-timestamp dataset passes
backtest validation for `horizon = 1`, `n_folds = 2` (length equals
`horizon * n_folds`), but in `expand` mode the produced train lengths
are 2 then 1 — not strictly increasing with the fold index. -/
theorem train_lengths_boundary_counterexample :
    validate_backtest_dataset ⟨[0, 1], ["s"]⟩ 2 1 = .ok () ∧
    generate_folds_datasets ⟨[0, 1], ["s"]⟩ 2 1 "expand" =
      .ok [(⟨[0, 1], ["s"]⟩, ⟨[0], ["s"]⟩), (⟨[0], ["s"]⟩, ⟨[1], ["s"]⟩)] ∧
    ¬ (∀ folds, generate_folds_datasets ⟨[0, 1], ["s"]⟩ 2 1 "expand" = .ok folds →
        ∀ i j (hi : i < folds.length) (hj : j < folds.length), i < j →
          (folds.get ⟨i, hi⟩).1.index.length < (folds.get ⟨j, hj⟩).1.index.length) := by
  refine ⟨by decide, by decide, ?_⟩
  intro H
  exact absurd
    (H [(⟨[0, 1], ["s"]⟩, ⟨[0], ["s"]⟩), (⟨[0], ["s"]⟩, ⟨[1], ["s"]⟩)]
      (by decide) 0 1 (by decide) (by decide) (by decide))
    (by decide)

theorem checkSegmentsLength_ok (len : Nat) (req : Int) (hle : req ≤ (len : Int)) :
    ∀ segs, checkSegmentsLength len req segs = .ok ()
  | [] => rfl
  | s :: rest => by
    simp only [checkSegmentsLength]
    rw [if_neg (by omega)]
    exact checkSegmentsLength_ok len req hle rest

theorem mapM_except_isOk {ε α β : Type} (g : α → Except ε β) :
    ∀ (xs : List α), (∀ x ∈ xs, ∃ y, g x = .ok y) → ∃ ys, xs.mapM g = .ok ys := by
  intro xs
  induction xs with
  | nil => intro _; exact ⟨[], rfl⟩
  | cons x rest ih =>
    intro hall
    obtain ⟨y, hy⟩ := hall x (by simp)
    obtain ⟨ys, hys⟩ := ih (fun z hz => hall z (by simp [hz]))
    refine ⟨y :: ys, ?_⟩
    rw [List.mapM_cons, hy, hys]
    rfl

theorem foldFor_isOk (ts : TSDataset) (n h chl offset : Nat) (hchl : chl ≤ 1)
    (hh : 1 ≤ h) (ho1 : 1 ≤ offset) (ho2 : offset + 1 ≤ n)
    (hT : h * n ≤ ts.index.length) :
    ∃ p, foldFor ts n h chl offset = .ok p := by
  have hP1 : h * offset ≤ h * n := Nat.mul_le_mul_left h (by omega)
  have hP1' : h * (offset + 1) ≤ h * n := Nat.mul_le_mul_left h ho2
  have hP1'' : h * (offset + 1) = h * offset + h := Nat.mul_succ h offset
  have hP2 : (n - offset) * h * chl ≤ (n - offset) * h :=
    le_trans (Nat.mul_le_mul_left ((n - offset) * h) hchl) (by simp)
  have hP3 : (n - offset) * h = h * n - h * offset := by
    rw [Nat.mul_comm, Nat.mul_sub]
  have hq : h ≤ h * offset := by
    calc h = h * 1 := (Nat.mul_one h).symm
      _ ≤ h * offset := Nat.mul_le_mul_left h ho1
  have ha_lt : (n - offset) * h * chl < ts.index.length := by omega
  have hb_lt : ts.index.length - h * offset - 1 < ts.index.length := by omega
  have hc_lt : ts.index.length - h * offset < ts.index.length := by omega
  have hd_lt : ts.index.length - h * offset - 1 + h < ts.index.length := by omega
  have eb : (ts.index.length : Int) - (h : Int) * (offset : Int) - 1 =
      ((ts.index.length - h * offset - 1 : Nat) : Int) := by
    omega
  have ec : ((ts.index.length - h * offset - 1 : Nat) : Int) + 1 =
      ((ts.index.length - h * offset : Nat) : Int) := by
    omega
  have ed : ((ts.index.length - h * offset - 1 : Nat) : Int) + (h : Int) =
      ((ts.index.length - h * offset - 1 + h : Nat) : Int) := by
    omega
  simp only [foldFor, foldBorders, zero_add]
  rw [eb, ec, ed]
  rw [pyGet_natCast ts.index _ ha_lt, except_bind_ok,
    pyGet_natCast ts.index _ hb_lt, except_bind_ok,
    pyGet_natCast ts.index _ hc_lt, except_bind_ok,
    pyGet_natCast ts.index _ hd_lt, except_bind_ok]
  exact ⟨_, rfl⟩

theorem foldFor_first_at_min_length (ts : TSDataset)
    (hs : List.Sorted (· < ·) ts.index) (n h chl : Nat)
    (hn : 1 ≤ n) (hh : 1 ≤ h) (hT : ts.index.length = h * n) :
    foldFor ts n h chl n =
      .ok (⟨ts.index, ts.segments⟩, ⟨ts.index.take h, ts.segments⟩) := by
  have hT1 : 1 ≤ ts.index.length := by
    have : 1 * 1 ≤ h * n := Nat.mul_le_mul hh hn
    omega
  have hcast : ((h * n : Nat) : Int) = (h : Int) * (n : Int) := by
    push_cast
    ring
  have e0 : (0 : Int) + ((n - n) * h * chl : Nat) = ((0 : Nat) : Int) := by
    simp [Nat.sub_self]
  have ebneg : (ts.index.length : Int) - (h : Int) * (n : Int) - 1 < 0 := by omega
  have ebwrap : 0 ≤ (ts.index.length : Int) - (h : Int) * (n : Int) - 1 +
      (ts.index.length : Int) := by omega
  have h0_lt : 0 < ts.index.length := hT1
  have ehm1 : (ts.index.length : Int) - (h : Int) * (n : Int) - 1 + 1 = ((0 : Nat) : Int) := by
    omega
  have ehd : (ts.index.length : Int) - (h : Int) * (n : Int) - 1 + (h : Int) =
      ((h - 1 : Nat) : Int) := by
    omega
  have ehd_lt : h - 1 < ts.index.length := by
    have : h * 1 ≤ h * n := Nat.mul_le_mul_left h hn
    omega
  simp only [foldFor, foldBorders]
  rw [e0, ehm1, ehd]
  rw [pyGet_natCast ts.index 0 h0_lt, except_bind_ok]
  rw [pyGet_ok_of_neg ts.index _ ebneg ebwrap, except_bind_ok]
  rw [except_bind_ok]
  rw [pyGet_natCast ts.index _ ehd_lt, except_bind_ok]
  simp only [TSDataset.train_test_split]
  have hjlt : ((ts.index.length : Int) - (h : Int) * (n : Int) - 1 +
      (ts.index.length : Int)).toNat < ts.index.length := by omega
  rw [filter_closed_range_eq_slice ts.index hs 0 _ h0_lt hjlt,
    filter_closed_range_eq_slice ts.index hs 0 _ h0_lt ehd_lt]
  rw [(by omega : ((ts.index.length : Int) - (h : Int) * (n : Int) - 1 +
      (ts.index.length : Int)).toNat + 1 - 0 = ts.index.length)]
  rw [(by omega : h - 1 + 1 - 0 = h)]
  rw [List.drop_zero, List.take_length]
  rfl

/-- C10: when every segment's target series has length exactly
`horizon * n_folds` — the minimum accepted by
`_validate_backtest_dataset` — validation passes, but the first fold's
`max_train_idx` is `-1`: Python negative indexing reads that fold's
train end as the dataset's last timestamp, the train range becomes the
whole index, the test range starts at the first timestamp, and the
`(train, test)` pair violates the train-end-immediately-precedes-
test-start invariant.  In-bounds border computation for all folds holds
whenever the dataset has at least `horizon * n_folds + 1` timestamps. -/
theorem min_length_dataset_breaks_first_fold (ts : TSDataset)
    (hs : List.Sorted (· < ·) ts.index) (n h : Nat)
    (hn : 1 ≤ n) (hh : 1 ≤ h) (hT : ts.index.length = h * n) :
    validate_backtest_dataset ts (n : Int) h = .ok () ∧
    (∀ chl, (foldBorders ts.index.length n h chl n).max_train_idx = -1) ∧
    (∀ m mode, CrossValidationMode.ofString mode = .ok m →
      ∃ tr te rest, generate_folds_datasets ts n h mode = .ok ((tr, te) :: rest) ∧
        tr.index.getLast? = ts.index.getLast? ∧
        te.index.head? = ts.index.head? ∧
        ¬ adjacentSplit ts tr te) ∧
    (∀ T chl offset, chl ≤ 1 → 1 ≤ offset → offset ≤ n → h * n + 1 ≤ T →
      0 ≤ (foldBorders T n h chl offset).min_train_idx ∧
      (foldBorders T n h chl offset).min_train_idx < (T : Int) ∧
      0 ≤ (foldBorders T n h chl offset).max_train_idx ∧
      (foldBorders T n h chl offset).max_train_idx < (T : Int) ∧
      0 ≤ (foldBorders T n h chl offset).min_test_idx ∧
      (foldBorders T n h chl offset).min_test_idx < (T : Int) ∧
      0 ≤ (foldBorders T n h chl offset).max_test_idx ∧
      (foldBorders T n h chl offset).max_test_idx < (T : Int)) := by
  have hcast : ((h * n : Nat) : Int) = (h : Int) * (n : Int) := by
    push_cast
    ring
  have hT1 : 1 ≤ ts.index.length := by
    have : 1 * 1 ≤ h * n := Nat.mul_le_mul hh hn
    omega
  refine ⟨?_, ?_, ?_, ?_⟩
  · exact checkSegmentsLength_ok _ _ (by omega) ts.segments
  · intro chl
    simp only [foldBorders]
    omega
  · intro m mode hmode
    have hchl : chlOf m ≤ 1 := by cases m <;> simp [chlOf]
    obtain ⟨n', rfl⟩ : ∃ n', n = n' + 1 := ⟨n - 1, by omega⟩
    have hoff : (List.range (n' + 1)).map (fun f => n' + 1 - f) =
        (n' + 1) :: (List.range n').map (fun f => n' + 1 - (f + 1)) := by
      rw [List.range_succ_eq_map]
      simp [List.map_map, Function.comp]
    obtain ⟨ys, hys⟩ : ∃ ys, ((List.range n').map (fun f => n' + 1 - (f + 1))).mapM
        (foldFor ts (n' + 1) h (chlOf m)) = .ok ys := by
      apply mapM_except_isOk
      intro x hx
      obtain ⟨f, hf, rfl⟩ := List.mem_map.mp hx
      have hf' : f < n' := List.mem_range.mp hf
      exact foldFor_isOk ts (n' + 1) h (chlOf m) (n' + 1 - (f + 1)) hchl hh
        (by omega) (by omega) (by omega)
    refine ⟨⟨ts.index, ts.segments⟩, ⟨ts.index.take h, ts.segments⟩, ys, ?_, rfl, ?_, ?_⟩
    · simp only [generate_folds_datasets, hmode, except_bind_ok]
      rw [hoff, List.mapM_cons]
      rw [foldFor_first_at_min_length ts hs (n' + 1) h (chlOf m) hn hh hT, except_bind_ok]
      rw [hys]
      rfl
    · show (ts.index.take h).head? = ts.index.head?
      rw [List.head?_take, if_neg (by omega)]
    · rintro ⟨k, hk, h1, -⟩
      have h1' : ts.index.getLast? = some (ts.index.get ⟨k, by omega⟩) := h1
      rw [List.getLast?_eq_getElem?, List.getElem?_eq_getElem (by omega)] at h1'
      have h2 := Option.some.inj h1'
      have h3 : (⟨ts.index.length - 1, by omega⟩ : Fin ts.index.length) = ⟨k, by omega⟩ :=
        hs.get_strictMono.injective (by
          rw [← h2]
          simp [List.get_eq_getElem])
      have h4 : ts.index.length - 1 = k := congrArg Fin.val h3
      omega
  · intro T chl offset hc1 hc2 hc3 hc4
    have hx1 : h * offset ≤ h * n := Nat.mul_le_mul_left h hc3
    have hx2 : h ≤ h * offset := by
      calc h = h * 1 := (Nat.mul_one h).symm
        _ ≤ h * offset := Nat.mul_le_mul_left h hc2
    have hy1 : (n - offset) * h * chl ≤ (n - offset) * h :=
      le_trans (Nat.mul_le_mul_left ((n - offset) * h) hc1) (by simp)
    have hy2 : (n - offset) * h = h * n - h * offset := by
      rw [Nat.mul_comm, Nat.mul_sub]
    have hcast2 : ((h * offset : Nat) : Int) = (h : Int) * (offset : Int) := by
      push_cast
      ring
    simp only [foldBorders]
    omega

/-- Witness for `min_length_dataset_breaks_first_fold`: two timestamps,
`horizon = 2`, `n_folds = 1`. -/
theorem min_length_dataset_breaks_first_fold_witness :
    (List.Sorted (· < ·) (⟨[5, 7], ["s"]⟩ : TSDataset).index ∧ 1 ≤ 1 ∧ 1 ≤ 2 ∧
      (⟨[5, 7], ["s"]⟩ : TSDataset).index.length = 2 * 1) ∧
    (validate_backtest_dataset ⟨[5, 7], ["s"]⟩ ((1 : Nat) : Int) 2 = .ok () ∧
      (∀ chl, (foldBorders (⟨[5, 7], ["s"]⟩ : TSDataset).index.length 1 2 chl 1).max_train_idx = -1) ∧
      (∀ m mode, CrossValidationMode.ofString mode = .ok m →
        ∃ tr te rest, generate_folds_datasets ⟨[5, 7], ["s"]⟩ 1 2 mode = .ok ((tr, te) :: rest) ∧
          tr.index.getLast? = (⟨[5, 7], ["s"]⟩ : TSDataset).index.getLast? ∧
          te.index.head? = (⟨[5, 7], ["s"]⟩ : TSDataset).index.head? ∧
          ¬ adjacentSplit ⟨[5, 7], ["s"]⟩ tr te) ∧
      (∀ T chl offset, chl ≤ 1 → 1 ≤ offset → offset ≤ 1 → 2 * 1 + 1 ≤ T →
        0 ≤ (foldBorders T 1 2 chl offset).min_train_idx ∧
        (foldBorders T 1 2 chl offset).min_train_idx < (T : Int) ∧
        0 ≤ (foldBorders T 1 2 chl offset).max_train_idx ∧
        (foldBorders T 1 2 chl offset).max_train_idx < (T : Int) ∧
        0 ≤ (foldBorders T 1 2 chl offset).min_test_idx ∧
        (foldBorders T 1 2 chl offset).min_test_idx < (T : Int) ∧
        0 ≤ (foldBorders T 1 2 chl offset).max_test_idx ∧
        (foldBorders T 1 2 chl offset).max_test_idx < (T : Int))) :=
  ⟨⟨by decide, by decide, by decide, by decide⟩,
   min_length_dataset_breaks_first_fold ⟨[5, 7], ["s"]⟩ (by decide) 1 2
     (by decide) (by decide) (by decide)⟩

/-- C9 (amended): for every mode string whose lower-casing is not one of
the two recognized member names (`expand`, `constant`), the enum lookup
`CrossValidationMode[mode.lower()]` fails, so `_generate_folds_datasets`
returns that configuration error (Python: a `KeyError`) rather than
silently defaulting, and `backtest` with that mode fails the same way
once its validations pass.  (The claim as stated — every string other
than the two literal values fails — is refuted by case-variant
spellings such as `"EXPAND"`; see the counterexample.) -/
theorem unknown_mode_rejected (mode : String)
    (h1 : pyLower mode ≠ "expand") (h2 : pyLower mode ≠ "constant") :
    (∀ ts n h, generate_folds_datasets ts n h mode = .error (.keyErrorMode mode)) ∧
    (∀ (self : Pipeline) ts metrics n_folds agg order,
      validate_backtest_n_folds n_folds = .ok () →
      validate_backtest_dataset ts n_folds self.horizon = .ok () →
      validate_backtest_metrics metrics = .ok () →
      self.backtest ts metrics n_folds mode agg order = .error (.keyErrorMode mode)) := by
  have hofs : CrossValidationMode.ofString mode = .error (.keyErrorMode mode) := by
    simp only [CrossValidationMode.ofString, if_neg h1, if_neg h2]
  constructor
  · intro ts n h
    simp only [generate_folds_datasets, hofs, except_bind_error]
  · intro self ts metrics n_folds agg order hv1 hv2 hv3
    simp only [Pipeline.backtest, hv1, hv2, hv3, except_bind_ok,
      generate_folds_datasets, hofs, except_bind_error]

/-- Witness for `unknown_mode_rejected` at the unknown mode `"bogus"`. -/
theorem unknown_mode_rejected_witness :
    (pyLower "bogus" ≠ "expand" ∧ pyLower "bogus" ≠ "constant") ∧
    ((∀ ts n h, generate_folds_datasets ts n h "bogus" = .error (.keyErrorMode "bogus")) ∧
      (∀ (self : Pipeline) ts metrics n_folds agg order,
        validate_backtest_n_folds n_folds = .ok () →
        validate_backtest_dataset ts n_folds self.horizon = .ok () →
        validate_backtest_metrics metrics = .ok () →
        self.backtest ts metrics n_folds "bogus" agg order =
          .error (.keyErrorMode "bogus"))) :=
  ⟨⟨by decide, by decide⟩, unknown_mode_rejected "bogus" (by decide) (by decide)⟩

/-- Counterexample to C9 as stated: `"EXPAND"` is not one of the two
recognized values `'expand'`, `'constant'`, yet `_generate_folds_datasets`
succeeds with it (the code lower-cases the mode first) instead of
failing with a configuration error. -/
theorem unknown_mode_counterexample :
    ("EXPAND" ≠ "expand" ∧ "EXPAND" ≠ "constant") ∧
    generate_folds_datasets ⟨[0, 1], ["s"]⟩ 1 1 "EXPAND" =
      .ok [(⟨[0], ["s"]⟩, ⟨[1], ["s"]⟩)] :=
  ⟨⟨by decide, by decide⟩, by decide⟩

theorem checkMetricsModes_first_bad :
    ∀ (pre : List Metric) (bad : Metric) (post : List Metric),
      (∀ mm ∈ pre, mm.mode = .per_segment) → bad.mode ≠ .per_segment →
      checkMetricsModes (pre ++ bad :: post) = .error (.wrongMetricMode bad.name)
  | [], bad, post => by
    intro _ hbad
    simp only [List.nil_append, checkMetricsModes]
    rw [if_neg hbad]
  | m :: pre, bad, post => by
    intro hpre hbad
    simp only [List.cons_append, checkMetricsModes]
    rw [if_pos (hpre m (by simp))]
    exact checkMetricsModes_first_bad pre bad post (fun mm hm => hpre mm (by simp [hm])) hbad

/-- C3: `backtest` performs its three validations before any fold
executes and in this fixed order, failing with the first failing
check's error: (1) `n_folds >= 1`, else the invalid-`n_folds`
configuration error regardless of the other arguments; (2) every
segment's target series (the shared index, in the wide format) has
length at least `horizon * n_folds`, else a configuration error naming
the offending segment; (3) `metrics` is non-empty and every metric is
per-segment, else the corresponding configuration error naming the
offending metric.  A failed validation is the entire result of
`backtest`, so no fold output is produced. -/
theorem backtest_validation_order (self : Pipeline) (ts : TSDataset)
    (metrics : List Metric) (n_folds : Int) (mode : String) (agg : Bool)
    (order : List Nat) :
    (n_folds < 1 →
      self.backtest ts metrics n_folds mode agg order = .error (.invalidNFolds n_folds)) ∧
    (1 ≤ n_folds → (ts.index.length : Int) < (self.horizon : Int) * n_folds →
      ∀ s rest, ts.segments = s :: rest →
        self.backtest ts metrics n_folds mode agg order = .error (.shortSeries s)) ∧
    (1 ≤ n_folds →
      ((self.horizon : Int) * n_folds ≤ (ts.index.length : Int) ∨ ts.segments = []) →
      (metrics = [] →
        self.backtest ts metrics n_folds mode agg order = .error .emptyMetrics) ∧
      (∀ (pre : List Metric) (bad : Metric) (post : List Metric),
        metrics = pre ++ bad :: post →
        (∀ mm ∈ pre, mm.mode = .per_segment) →
        bad.mode ≠ .per_segment →
        self.backtest ts metrics n_folds mode agg order =
          .error (.wrongMetricMode bad.name))) := by
  refine ⟨?_, ?_, ?_⟩
  · intro hlt
    have hv1 : validate_backtest_n_folds n_folds = .error (.invalidNFolds n_folds) := by
      simp only [validate_backtest_n_folds, if_pos hlt]
    simp only [Pipeline.backtest, hv1, except_bind_error]
  · intro hge hshort s rest hsegs
    have hnlt : ¬ n_folds < 1 := by omega
    have hv1 : validate_backtest_n_folds n_folds = .ok () := by
      simp only [validate_backtest_n_folds, if_neg hnlt]
    have hv2 : validate_backtest_dataset ts n_folds self.horizon =
        .error (.shortSeries s) := by
      simp only [validate_backtest_dataset, hsegs, checkSegmentsLength]
      rw [if_pos (by omega)]
    simp only [Pipeline.backtest, hv1, hv2, except_bind_ok, except_bind_error]
  · intro hge hlong
    have hnlt : ¬ n_folds < 1 := by omega
    have hv1 : validate_backtest_n_folds n_folds = .ok () := by
      simp only [validate_backtest_n_folds, if_neg hnlt]
    have hv2 : validate_backtest_dataset ts n_folds self.horizon = .ok () := by
      rcases hlong with hlong | hempty
      · exact checkSegmentsLength_ok _ _ (by omega) ts.segments
      · simp only [validate_backtest_dataset, hempty]
        rfl
    constructor
    · intro hnil
      have hv3 : validate_backtest_metrics metrics = .error .emptyMetrics := by
        simp only [validate_backtest_metrics, hnil, List.isEmpty_nil, if_true]
      simp only [Pipeline.backtest, hv1, hv2, hv3, except_bind_ok, except_bind_error]
    · intro pre bad post hdecomp hpre hbad
      have hv3 : validate_backtest_metrics metrics = .error (.wrongMetricMode bad.name) := by
        have hne : (pre ++ bad :: post).isEmpty = false := by cases pre <;> rfl
        simp only [validate_backtest_metrics, hdecomp, hne, Bool.false_eq_true, if_false]
        exact checkMetricsModes_first_bad pre bad post hpre hbad
      simp only [Pipeline.backtest, hv1, hv2, hv3, except_bind_ok, except_bind_error]

/-- Witness for `backtest_validation_order`: each of the three checks
exercised at a concrete input (the trivial model and a wrong-mode
metric). -/
theorem backtest_validation_order_witness :
    ((-2 : Int) < 1 ∧
      (⟨defaultModel, [], 1, none⟩ : Pipeline).backtest ⟨[0, 1], ["s"]⟩ [] (-2) "expand"
        false [] = .error (.invalidNFolds (-2))) ∧
    (((⟨[0], ["a", "b"]⟩ : TSDataset).index.length : Int) <
        ((⟨defaultModel, [], 1, none⟩ : Pipeline).horizon : Int) * 2 ∧
      (⟨defaultModel, [], 1, none⟩ : Pipeline).backtest ⟨[0], ["a", "b"]⟩ [] 2 "expand"
        false [] = .error (.shortSeries "a")) ∧
    ((⟨defaultModel, [], 1, none⟩ : Pipeline).backtest ⟨[0, 1], ["s"]⟩ [] 1 "expand"
        false [] = .error .emptyMetrics) ∧
    ((⟨defaultModel, [], 1, none⟩ : Pipeline).backtest ⟨[0, 1], ["s"]⟩
        [⟨"m0", .overall, fun _ _ _ => 0⟩] 1 "expand" false [] =
      .error (.wrongMetricMode "m0")) := by
  refine ⟨⟨by decide, ?_⟩, ⟨by decide, ?_⟩, ?_, ?_⟩
  · exact (backtest_validation_order ⟨defaultModel, [], 1, none⟩ ⟨[0, 1], ["s"]⟩ [] (-2)
      "expand" false []).1 (by decide)
  · exact (backtest_validation_order ⟨defaultModel, [], 1, none⟩ ⟨[0], ["a", "b"]⟩ [] 2
      "expand" false []).2.1 (by decide) (by decide) "a" ["b"] rfl
  · exact ((backtest_validation_order ⟨defaultModel, [], 1, none⟩ ⟨[0, 1], ["s"]⟩ [] 1
      "expand" false []).2.2 (by decide) (Or.inl (by decide))).1 rfl
  · exact ((backtest_validation_order ⟨defaultModel, [], 1, none⟩ ⟨[0, 1], ["s"]⟩
      [⟨"m0", .overall, fun _ _ _ => 0⟩] 1 "expand" false []).2.2 (by decide)
      (Or.inl (by decide))).2 [] ⟨"m0", .overall, fun _ _ _ => 0⟩ [] rfl
      (by intro mm hmm; cases hmm) (by decide)

theorem metricsRowLe_trans (a b c : MetricsRow) (hab : metricsRowLe a b = true)
    (hbc : metricsRowLe b c = true) : metricsRowLe a c = true := by
  simp only [metricsRowLe, Bool.or_eq_true, Bool.and_eq_true, decide_eq_true_eq] at *
  rcases hab with hab | ⟨hab1, hab2⟩ <;> rcases hbc with hbc | ⟨hbc1, hbc2⟩
  · exact Or.inl (lt_trans hab hbc)
  · exact Or.inl (hbc1 ▸ hab)
  · exact Or.inl (hab1 ▸ hbc)
  · exact Or.inr ⟨hab1.trans hbc1, le_trans hab2 hbc2⟩

theorem metricsRowLe_total (a b : MetricsRow) :
    (metricsRowLe a b || metricsRowLe b a) = true := by
  simp only [metricsRowLe, Bool.or_eq_true, Bool.and_eq_true, decide_eq_true_eq]
  rcases lt_trichotomy a.segment b.segment with hlt | heq | hgt
  · exact Or.inl (Or.inl hlt)
  · rcases Nat.le_total a.fold_number b.fold_number with hle | hle
    · exact Or.inl (Or.inr ⟨heq, hle⟩)
    · exact Or.inr (Or.inr ⟨heq.symm, hle⟩)
  · exact Or.inr (Or.inl hgt)

theorem columnWidth_uniform (m : Nat) :
    ∀ (vs : List (List ℚ)), (∀ v ∈ vs, v.length = m) → vs ≠ [] → columnWidth vs = m
  | [], _, hne => absurd rfl hne
  | v :: rest, hvs, _ => by
    cases rest with
    | nil =>
      simp only [columnWidth, List.map_cons, List.map_nil, List.foldr_cons, List.foldr_nil]
      rw [hvs v (by simp)]
      exact Nat.max_zero m
    | cons w rest' =>
      have hrec : columnWidth (w :: rest') = m :=
        columnWidth_uniform m (w :: rest') (fun x hx => hvs x (by simp [hx])) (by simp)
      simp only [columnWidth, List.map_cons, List.foldr_cons] at hrec ⊢
      rw [hvs v (by simp), hrec]
      exact Nat.max_self m

theorem getD_range_map (g : Nat → ℚ) (m j : Nat) (hj : j < m) :
    ((List.range m).map g).getD j 0 = g j := by
  rw [List.getD_eq_getElem?_getD, List.getElem?_map, List.getElem?_range hj]
  rfl

theorem foldRows_width (folds : List FoldRecord) (mcols : Nat)
    (hw : ∀ fold ∈ folds, ∀ p ∈ fold.metrics, p.2.length = mcols) :
    ∀ row ∈ (folds.enum.map (fun p => foldMetricsRows p.1 p.2)).flatten,
      row.values.length = mcols := by
  intro row hrow
  obtain ⟨L, hL, hrowL⟩ := List.mem_flatten.mp hrow
  obtain ⟨p, hp, rfl⟩ := List.mem_map.mp hL
  obtain ⟨q, hq, rfl⟩ := List.mem_map.mp hrowL
  have hfold : p.2 ∈ folds := by
    rw [List.enum_eq_zip_range] at hp
    exact (List.of_mem_zip hp).2
  exact hw p.2 hfold q hq

/-- C5: with `aggregate_metrics = False` the metrics table is a
permutation of the concatenation of all per-fold per-segment rows (each
tagged with its fold index), sorted by `(segment, fold_number)`; with
`aggregate_metrics = True` it has exactly one row per segment — the
row type carries no fold column — and each metric value equals the
arithmetic mean of that segment's non-aggregated per-fold values. -/
theorem backtest_metrics_aggregation (folds : List FoldRecord) (mcols : Nat)
    (hw : ∀ fold ∈ folds, ∀ p ∈ fold.metrics, p.2.length = mcols) :
    (∃ rows, get_backtest_metrics folds false = .inl rows ∧
      rows.Perm ((folds.enum.map (fun p => foldMetricsRows p.1 p.2)).flatten) ∧
      List.Sorted (fun a b => metricsRowLe a b = true) rows) ∧
    (∃ agg, get_backtest_metrics folds true = .inr agg ∧
      (agg.map AggMetricsRow.segment).Nodup ∧
      (∀ s, s ∈ agg.map AggMetricsRow.segment ↔
        s ∈ ((folds.enum.map (fun p => foldMetricsRows p.1 p.2)).flatten).map
          MetricsRow.segment) ∧
      (∀ r ∈ agg, r.values.length = mcols ∧
        ∀ j, j < mcols →
          r.values.getD j 0 =
            ((((folds.enum.map (fun p => foldMetricsRows p.1 p.2)).flatten).filter
                (fun x => decide (x.segment = r.segment))).map
              (fun x => x.values.getD j 0)).sum /
            ((((folds.enum.map (fun p => foldMetricsRows p.1 p.2)).flatten).filter
                (fun x => decide (x.segment = r.segment))).length : ℚ))) := by
  have hperm : (((folds.enum.map (fun p => foldMetricsRows p.1 p.2)).flatten).mergeSort
      metricsRowLe).Perm ((folds.enum.map (fun p => foldMetricsRows p.1 p.2)).flatten) :=
    List.mergeSort_perm _ metricsRowLe
  have hmapseg : (groupbyMeanMetrics
      (((folds.enum.map (fun p => foldMetricsRows p.1 p.2)).flatten).mergeSort
        metricsRowLe)).map AggMetricsRow.segment =
      ((((folds.enum.map (fun p => foldMetricsRows p.1 p.2)).flatten).mergeSort
        metricsRowLe).map MetricsRow.segment).dedup := by
    simp [groupbyMeanMetrics, List.map_map, Function.comp_def]
  constructor
  · refine ⟨_, rfl, hperm, ?_⟩
    exact List.sorted_mergeSort metricsRowLe_trans metricsRowLe_total _
  · refine ⟨_, rfl, ?_, ?_, ?_⟩
    · rw [hmapseg]
      exact List.nodup_dedup _
    · intro s
      rw [hmapseg, List.mem_dedup]
      exact (hperm.map MetricsRow.segment).mem_iff
    · intro r hr
      simp only [groupbyMeanMetrics] at hr
      obtain ⟨k, hk, rfl⟩ := List.mem_map.mp hr
      have hkmem : k ∈ (((folds.enum.map (fun p => foldMetricsRows p.1 p.2)).flatten).mergeSort
          metricsRowLe).map MetricsRow.segment := (List.mem_dedup).mp hk
      obtain ⟨row0, hrow0, hrow0k⟩ := List.mem_map.mp hkmem
      have hrow0g : row0 ∈ (((folds.enum.map
          (fun p => foldMetricsRows p.1 p.2)).flatten).mergeSort metricsRowLe).filter
          (fun x => decide (x.segment = k)) :=
        List.mem_filter.mpr ⟨hrow0, by simp [hrow0k]⟩
      have hne : (((folds.enum.map
          (fun p => foldMetricsRows p.1 p.2)).flatten).mergeSort metricsRowLe).filter
          (fun x => decide (x.segment = k)) ≠ [] := List.ne_nil_of_mem hrow0g
      have hgperm : ((((folds.enum.map
          (fun p => foldMetricsRows p.1 p.2)).flatten).mergeSort metricsRowLe).filter
          (fun x => decide (x.segment = k))).Perm
          (((folds.enum.map (fun p => foldMetricsRows p.1 p.2)).flatten).filter
          (fun x => decide (x.segment = k))) := hperm.filter _
      have hwidths : ∀ v ∈ (((((folds.enum.map
          (fun p => foldMetricsRows p.1 p.2)).flatten).mergeSort metricsRowLe).filter
          (fun x => decide (x.segment = k))).map MetricsRow.values), v.length = mcols := by
        intro v hv
        obtain ⟨row1, hrow1, rfl⟩ := List.mem_map.mp hv
        have hrow1s := (List.mem_filter.mp hrow1).1
        have hrow1r : row1 ∈ (folds.enum.map (fun p => foldMetricsRows p.1 p.2)).flatten :=
          hperm.mem_iff.mp hrow1s
        exact foldRows_width folds mcols hw row1 hrow1r
      have hcw : columnWidth (((((folds.enum.map
          (fun p => foldMetricsRows p.1 p.2)).flatten).mergeSort metricsRowLe).filter
          (fun x => decide (x.segment = k))).map MetricsRow.values) = mcols := by
        apply columnWidth_uniform mcols _ hwidths
        simp only [ne_eq, List.map_eq_nil_iff]
        exact hne
      constructor
      · simp only [meanColumns, hcw, List.length_map, List.length_range]
      · intro j hj
        simp only [meanColumns, hcw]
        rw [getD_range_map _ mcols j hj]
        rw [List.map_map, List.length_map]
        have hsum : ((((((folds.enum.map
            (fun p => foldMetricsRows p.1 p.2)).flatten).mergeSort metricsRowLe).filter
            (fun x => decide (x.segment = k))).map
            (fun x => x.values.getD j 0)).sum : ℚ) =
            ((((folds.enum.map (fun p => foldMetricsRows p.1 p.2)).flatten).filter
            (fun x => decide (x.segment = k))).map (fun x => x.values.getD j 0)).sum :=
          (hgperm.map _).sum_eq
        have hlen := hgperm.length_eq
        rw [Function.comp_def]
        rw [hsum, hlen]

/-- Witness for `backtest_metrics_aggregation`: two folds over segments
`a`, `b` with one metric column. -/
theorem backtest_metrics_aggregation_witness :
    (∀ fold ∈ [(⟨some 0, some 1, some 2, some 3, ⟨[], []⟩,
          [("a", [(1 : ℚ)]), ("b", [5])]⟩ : FoldRecord),
        ⟨some 0, some 1, some 2, some 3, ⟨[], []⟩, [("a", [3]), ("b", [7])]⟩],
      ∀ p ∈ fold.metrics, p.2.length = 1) ∧
    ((∃ rows, get_backtest_metrics [(⟨some 0, some 1, some 2, some 3, ⟨[], []⟩,
          [("a", [(1 : ℚ)]), ("b", [5])]⟩ : FoldRecord),
        ⟨some 0, some 1, some 2, some 3, ⟨[], []⟩, [("a", [3]), ("b", [7])]⟩] false =
          .inl rows ∧
      rows.Perm (([(⟨some 0, some 1, some 2, some 3, ⟨[], []⟩,
          [("a", [(1 : ℚ)]), ("b", [5])]⟩ : FoldRecord),
        ⟨some 0, some 1, some 2, some 3, ⟨[], []⟩,
          [("a", [3]), ("b", [7])]⟩].enum.map (fun p => foldMetricsRows p.1 p.2)).flatten) ∧
      List.Sorted (fun a b => metricsRowLe a b = true) rows) ∧
    (∃ agg, get_backtest_metrics [(⟨some 0, some 1, some 2, some 3, ⟨[], []⟩,
          [("a", [(1 : ℚ)]), ("b", [5])]⟩ : FoldRecord),
        ⟨some 0, some 1, some 2, some 3, ⟨[], []⟩, [("a", [3]), ("b", [7])]⟩] true =
          .inr agg ∧
      (agg.map AggMetricsRow.segment).Nodup ∧
      (∀ s, s ∈ agg.map AggMetricsRow.segment ↔
        s ∈ (([(⟨some 0, some 1, some 2, some 3, ⟨[], []⟩,
            [("a", [(1 : ℚ)]), ("b", [5])]⟩ : FoldRecord),
          ⟨some 0, some 1, some 2, some 3, ⟨[], []⟩,
            [("a", [3]), ("b", [7])]⟩].enum.map
              (fun p => foldMetricsRows p.1 p.2)).flatten).map MetricsRow.segment) ∧
      (∀ r ∈ agg, r.values.length = 1 ∧
        ∀ j, j < 1 →
          r.values.getD j 0 =
            (((([(⟨some 0, some 1, some 2, some 3, ⟨[], []⟩,
                  [("a", [(1 : ℚ)]), ("b", [5])]⟩ : FoldRecord),
                ⟨some 0, some 1, some 2, some 3, ⟨[], []⟩,
                  [("a", [3]), ("b", [7])]⟩].enum.map
                  (fun p => foldMetricsRows p.1 p.2)).flatten).filter
                (fun x => decide (x.segment = r.segment))).map
              (fun x => x.values.getD j 0)).sum /
            ((((([(⟨some 0, some 1, some 2, some 3, ⟨[], []⟩,
                  [("a", [(1 : ℚ)]), ("b", [5])]⟩ : FoldRecord),
                ⟨some 0, some 1, some 2, some 3, ⟨[], []⟩,
                  [("a", [3]), ("b", [7])]⟩].enum.map
                  (fun p => foldMetricsRows p.1 p.2)).flatten).filter
                (fun x => decide (x.segment = r.segment)))).length : ℚ)))) :=
  ⟨by decide,
   backtest_metrics_aggregation
     [⟨some 0, some 1, some 2, some 3, ⟨[], []⟩, [("a", [(1 : ℚ)]), ("b", [5])]⟩,
      ⟨some 0, some 1, some 2, some 3, ⟨[], []⟩, [("a", [3]), ("b", [7])]⟩] 1 (by decide)⟩

theorem mapM_except_ok_length {ε α β : Type} (g : α → Except ε β) :
    ∀ (xs : List α) (ys : List β), xs.mapM g = .ok ys → ys.length = xs.length := by
  intro xs
  induction xs with
  | nil =>
    intro ys hys
    have : ([] : List β) = ys := Except.ok.inj hys
    simp [← this]
  | cons x rest ih =>
    intro ys hys
    rw [List.mapM_cons] at hys
    cases hgx : g x with
    | error e =>
      rw [hgx] at hys
      exact Except.noConfusion hys
    | ok b =>
      rw [hgx, except_bind_ok] at hys
      cases hrest : rest.mapM g with
      | error e =>
        rw [hrest] at hys
        exact Except.noConfusion hys
      | ok bs =>
        rw [hrest, except_bind_ok] at hys
        have : b :: bs = ys := Except.ok.inj hys
        simp [← this, ih bs hrest]

theorem generate_folds_length (ts : TSDataset) (n h : Nat) (mode : String)
    (foldsDs : List (TSDataset × TSDataset))
    (hgen : generate_folds_datasets ts n h mode = .ok foldsDs) : foldsDs.length = n := by
  simp only [generate_folds_datasets] at hgen
  cases hofs : CrossValidationMode.ofString mode with
  | error e =>
    rw [hofs, except_bind_error] at hgen
    exact Except.noConfusion hgen
  | ok m =>
    rw [hofs, except_bind_ok] at hgen
    have := mapM_except_ok_length _ _ _ hgen
    simpa using this

theorem poolRun_of_perm (tasks : List (Except BacktestError FoldRecord)) (order : List Nat)
    (horder : order.Perm (List.range tasks.length)) :
    poolRun tasks order = tasks.mapM id := by
  have henum : (List.range tasks.length).map
      (fun i => (i, tasks.getD i (.error .indexError))) = tasks.enum := by
    apply List.ext_getElem
    · simp
    · intro k h1 h2
      have hk : k < tasks.length := by simpa using h2
      rw [List.getElem_map, List.getElem_range, List.getD_eq_getElem?_getD,
        List.getElem?_eq_getElem hk, List.getElem_enum]
      rfl
  have hpc : (order.map (fun i => (i, tasks.getD i (.error .indexError)))).Perm
      tasks.enum := by
    rw [← henum]
    exact horder.map _
  have hsortperm : ((order.map (fun i => (i, tasks.getD i (.error .indexError)))).mergeSort
      (fun a b => decide (a.1 ≤ b.1))).Perm tasks.enum :=
    (List.mergeSort_perm _ _).trans hpc
  have hsorted1 : List.Pairwise (fun a b : Nat × Except BacktestError FoldRecord =>
      a.1 < b.1) ((order.map (fun i => (i, tasks.getD i (.error .indexError)))).mergeSort
      (fun a b => decide (a.1 ≤ b.1))) := by
    have hle : List.Pairwise (fun a b : Nat × Except BacktestError FoldRecord =>
        (decide (a.1 ≤ b.1)) = true) ((order.map
        (fun i => (i, tasks.getD i (.error .indexError)))).mergeSort
        (fun a b => decide (a.1 ≤ b.1))) :=
      List.sorted_mergeSort (fun a b c hab hbc => by
          simp only [decide_eq_true_eq] at *
          omega)
        (fun a b => by
          simp only [Bool.or_eq_true, decide_eq_true_eq]
          omega) _
    have hnodup : (((order.map (fun i => (i, tasks.getD i (.error .indexError)))).mergeSort
        (fun a b => decide (a.1 ≤ b.1))).map Prod.fst).Nodup := by
      have : ((((order.map (fun i => (i, tasks.getD i (.error .indexError)))).mergeSort
          (fun a b => decide (a.1 ≤ b.1))).map Prod.fst)).Perm
          (tasks.enum.map Prod.fst) := hsortperm.map _
      rw [List.enum_map_fst] at this
      exact this.nodup_iff.mpr (List.nodup_range tasks.length)
    have hne : List.Pairwise (fun a b : Nat × Except BacktestError FoldRecord =>
        a.1 ≠ b.1) ((order.map (fun i => (i, tasks.getD i (.error .indexError)))).mergeSort
        (fun a b => decide (a.1 ≤ b.1))) := by
      exact List.pairwise_map.mp hnodup
    have := hle.and hne
    exact this.imp (fun hab => by
      simp only [decide_eq_true_eq] at hab
      omega)
  have hsorted2 : List.Pairwise (fun a b : Nat × Except BacktestError FoldRecord =>
      a.1 < b.1) tasks.enum := by
    have h1 : List.Pairwise (· < ·) (tasks.enum.map Prod.fst) := by
      rw [List.enum_map_fst]
      exact List.pairwise_lt_range tasks.length
    rw [List.pairwise_map] at h1
    exact h1
  haveI : IsAntisymm (Nat × Except BacktestError FoldRecord)
      (fun a b => a.1 < b.1) := ⟨fun a b h1 h2 => absurd (lt_trans h1 h2) (lt_irrefl _)⟩
  have hcoll : ((order.map (fun i => (i, tasks.getD i (.error .indexError)))).mergeSort
      (fun a b => decide (a.1 ≤ b.1))) = tasks.enum :=
    List.eq_of_perm_of_sorted hsortperm hsorted1 hsorted2
  simp only [poolRun, hcoll, List.enum_map_snd]

/-- C6: backtest results do not depend on the worker pool's completion
order: for any two completion orders (permutations of the dispatched
fold indices), `backtest` returns identical metrics, forecast and
fold-info tables, because results are collected keyed by fold number.
Running with one worker corresponds to the identity order, so any
degree of parallelism yields the sequential result. -/
theorem backtest_parallelism_deterministic (self : Pipeline) (ts : TSDataset)
    (metrics : List Metric) (n_folds : Int) (mode : String) (agg : Bool)
    (o₁ o₂ : List Nat)
    (h₁ : o₁.Perm (List.range n_folds.toNat))
    (h₂ : o₂.Perm (List.range n_folds.toNat)) :
    self.backtest ts metrics n_folds mode agg o₁ =
      self.backtest ts metrics n_folds mode agg o₂ := by
  simp only [Pipeline.backtest]
  cases hv1 : validate_backtest_n_folds n_folds with
  | error e => rfl
  | ok u =>
    cases u
    simp only [except_bind_ok]
    cases hv2 : validate_backtest_dataset ts n_folds self.horizon with
    | error e => rfl
    | ok u =>
      cases u
      simp only [except_bind_ok]
      cases hv3 : validate_backtest_metrics metrics with
      | error e => rfl
      | ok u =>
        cases u
        simp only [except_bind_ok]
        cases hgen : generate_folds_datasets ts n_folds.toNat self.horizon mode with
        | error e => rfl
        | ok foldsDs =>
          simp only [except_bind_ok]
          have hlen : (backtestTasks self metrics foldsDs).length = n_folds.toNat := by
            simp only [backtestTasks, List.length_map, List.enum_length]
            exact generate_folds_length ts n_folds.toNat self.horizon mode foldsDs hgen
          rw [poolRun_of_perm (backtestTasks self metrics foldsDs) o₁ (by rw [hlen]; exact h₁),
            poolRun_of_perm (backtestTasks self metrics foldsDs) o₂ (by rw [hlen]; exact h₂)]

/-- Witness for `backtest_parallelism_deterministic`: a two-fold
backtest with completion orders `[1, 0]` and `[0, 1]`. -/
theorem backtest_parallelism_deterministic_witness :
    (([1, 0] : List Nat).Perm (List.range (2 : Int).toNat) ∧
      ([0, 1] : List Nat).Perm (List.range (2 : Int).toNat)) ∧
    (⟨defaultModel, [], 1, none⟩ : Pipeline).backtest ⟨[0, 1, 2], ["s"]⟩
        [⟨"m0", .per_segment, fun _ _ _ => 0⟩] 2 "expand" false [1, 0] =
      (⟨defaultModel, [], 1, none⟩ : Pipeline).backtest ⟨[0, 1, 2], ["s"]⟩
        [⟨"m0", .per_segment, fun _ _ _ => 0⟩] 2 "expand" false [0, 1] :=
  ⟨⟨by decide, by decide⟩,
   backtest_parallelism_deterministic ⟨defaultModel, [], 1, none⟩ ⟨[0, 1, 2], ["s"]⟩
     [⟨"m0", .per_segment, fun _ _ _ => 0⟩] 2 "expand" false [1, 0] [0, 1]
     (by decide) (by decide)⟩

theorem mapM_id_ok_forall {ε β : Type} :
    ∀ (tasks : List (Except ε β)) (rs : List β), tasks.mapM id = .ok rs →
      ∀ t ∈ tasks, ∃ v, t = .ok v := by
  intro tasks
  induction tasks with
  | nil => intro rs _ t ht; cases ht
  | cons x rest ih =>
    intro rs hrs t ht
    rw [List.mapM_cons] at hrs
    cases hx : x with
    | error e =>
      rw [hx] at hrs
      exact Except.noConfusion hrs
    | ok v =>
      rw [hx] at hrs
      simp only [id_eq, except_bind_ok] at hrs
      cases hrest : rest.mapM id with
      | error e =>
        rw [hrest] at hrs
        exact Except.noConfusion hrs
      | ok vs =>
        rcases List.mem_cons.mp ht with rfl | htr
        · exact ⟨v, hx⟩
        · exact ih vs hrest t htr

theorem mapM_id_first_error {ε β : Type} :
    ∀ (tasks : List (Except ε β)) (k : Nat) (e : ε),
      tasks[k]? = some (Except.error e) →
      (∀ i, i < k → ∃ v, tasks[i]? = some (Except.ok v)) →
      tasks.mapM id = .error e := by
  intro tasks
  induction tasks with
  | nil => intro k e hk _; simp at hk
  | cons x rest ih =>
    intro k e hk hbefore
    cases k with
    | zero =>
      simp only [List.getElem?_cons_zero, Option.some.injEq] at hk
      rw [List.mapM_cons, hk]
      rfl
    | succ k' =>
      obtain ⟨v, hv⟩ := hbefore 0 (Nat.succ_pos k')
      simp only [List.getElem?_cons_zero, Option.some.injEq] at hv
      rw [List.mapM_cons, hv]
      simp only [id_eq, except_bind_ok]
      rw [List.getElem?_cons_succ] at hk
      have hrest : rest.mapM id = .error e := by
        apply ih k' e hk
        intro i hi
        have := hbefore (i + 1) (by omega)
        rwa [List.getElem?_cons_succ] at this
      rw [hrest]
      rfl

/-- C8: if any fold's fit/forecast raises, `backtest` propagates that
fold's error to the caller and returns no result: a successful result
implies every fold task succeeded (already-completed folds' work is
never aggregated partially), and the first failing fold's error (in
fold order) is the error `backtest` returns, with no retry. -/
theorem backtest_fold_failure_propagates (self : Pipeline) (ts : TSDataset)
    (metrics : List Metric) (n_folds : Int) (mode : String) (agg : Bool)
    (order : List Nat) (foldsDs : List (TSDataset × TSDataset))
    (hv1 : validate_backtest_n_folds n_folds = .ok ())
    (hv2 : validate_backtest_dataset ts n_folds self.horizon = .ok ())
    (hv3 : validate_backtest_metrics metrics = .ok ())
    (hgen : generate_folds_datasets ts n_folds.toNat self.horizon mode = .ok foldsDs)
    (horder : order.Perm (List.range n_folds.toNat)) :
    (∀ res, self.backtest ts metrics n_folds mode agg order = .ok res →
      ∀ t ∈ backtestTasks self metrics foldsDs, ∃ v, t = .ok v) ∧
    (∀ (k : Nat) (e : BacktestError),
      (backtestTasks self metrics foldsDs)[k]? = some (Except.error e) →
      (∀ i, i < k → ∃ v : FoldRecord, (backtestTasks self metrics foldsDs)[i]? =
        some (Except.ok v)) →
      self.backtest ts metrics n_folds mode agg order = .error e) := by
  have hlen : (backtestTasks self metrics foldsDs).length = n_folds.toNat := by
    simp only [backtestTasks, List.length_map, List.enum_length]
    exact generate_folds_length ts n_folds.toNat self.horizon mode foldsDs hgen
  have hpool : poolRun (backtestTasks self metrics foldsDs) order =
      (backtestTasks self metrics foldsDs).mapM id :=
    poolRun_of_perm _ _ (by rw [hlen]; exact horder)
  constructor
  · intro res hres
    simp only [Pipeline.backtest, hv1, hv2, hv3, hgen, except_bind_ok, hpool] at hres
    cases hm : (backtestTasks self metrics foldsDs).mapM id with
    | error e =>
      rw [hm] at hres
      exact Except.noConfusion hres
    | ok rs =>
      exact mapM_id_ok_forall _ rs hm
  · intro k e hk hbefore
    simp only [Pipeline.backtest, hv1, hv2, hv3, hgen, except_bind_ok, hpool]
    rw [mapM_id_first_error _ k e hk hbefore]
    rfl

/-- Witness for `backtest_fold_failure_propagates`: a model whose fit
fails on the second fold's longer train set; `backtest` returns exactly
that fold's error. -/
theorem backtest_fold_failure_propagates_witness :
    (validate_backtest_n_folds 2 = .ok () ∧
      validate_backtest_dataset ⟨[0, 1, 2], ["s"]⟩ 2 1 = .ok () ∧
      validate_backtest_metrics [⟨"m0", .per_segment, fun _ _ _ => 0⟩] = .ok () ∧
      generate_folds_datasets ⟨[0, 1, 2], ["s"]⟩ (2 : Int).toNat 1 "expand" =
        .ok [(⟨[0], ["s"]⟩, ⟨[1], ["s"]⟩), (⟨[0, 1], ["s"]⟩, ⟨[2], ["s"]⟩)] ∧
      ([0, 1] : List Nat).Perm (List.range (2 : Int).toNat)) ∧
    ((∀ res, (⟨⟨0, fun s t => if t.index.length ≤ 1 then .ok s else .error "fit failed",
          fun _ t => .ok t⟩, [], 1, none⟩ : Pipeline).backtest ⟨[0, 1, 2], ["s"]⟩
          [⟨"m0", .per_segment, fun _ _ _ => 0⟩] 2 "expand" false [0, 1] = .ok res →
        ∀ t ∈ backtestTasks
          ⟨⟨0, fun s t => if t.index.length ≤ 1 then .ok s else .error "fit failed",
            fun _ t => .ok t⟩, [], 1, none⟩
          [⟨"m0", .per_segment, fun _ _ _ => 0⟩]
          [(⟨[0], ["s"]⟩, ⟨[1], ["s"]⟩), (⟨[0, 1], ["s"]⟩, ⟨[2], ["s"]⟩)],
          ∃ v, t = .ok v) ∧
      (∀ (k : Nat) (e : BacktestError),
        (backtestTasks
          ⟨⟨0, fun s t => if t.index.length ≤ 1 then .ok s else .error "fit failed",
            fun _ t => .ok t⟩, [], 1, none⟩
          [⟨"m0", .per_segment, fun _ _ _ => 0⟩]
          [(⟨[0], ["s"]⟩, ⟨[1], ["s"]⟩), (⟨[0, 1], ["s"]⟩, ⟨[2], ["s"]⟩)])[k]? =
          some (Except.error e) →
        (∀ i, i < k → ∃ v : FoldRecord, (backtestTasks
          ⟨⟨0, fun s t => if t.index.length ≤ 1 then .ok s else .error "fit failed",
            fun _ t => .ok t⟩, [], 1, none⟩
          [⟨"m0", .per_segment, fun _ _ _ => 0⟩]
          [(⟨[0], ["s"]⟩, ⟨[1], ["s"]⟩), (⟨[0, 1], ["s"]⟩, ⟨[2], ["s"]⟩)])[i]? =
          some (Except.ok v)) →
        (⟨⟨0, fun s t => if t.index.length ≤ 1 then .ok s else .error "fit failed",
          fun _ t => .ok t⟩, [], 1, none⟩ : Pipeline).backtest ⟨[0, 1, 2], ["s"]⟩
          [⟨"m0", .per_segment, fun _ _ _ => 0⟩] 2 "expand" false [0, 1] = .error e)) :=
  ⟨⟨by decide, by decide, by decide, by decide, by decide⟩,
   backtest_fold_failure_propagates
     ⟨⟨0, fun s t => if t.index.length ≤ 1 then .ok s else .error "fit failed",
       fun _ t => .ok t⟩, [], 1, none⟩ ⟨[0, 1, 2], ["s"]⟩
     [⟨"m0", .per_segment, fun _ _ _ => 0⟩] 2 "expand" false [0, 1]
     [(⟨[0], ["s"]⟩, ⟨[1], ["s"]⟩), (⟨[0, 1], ["s"]⟩, ⟨[2], ["s"]⟩)]
     (by decide) (by decide) (by decide) (by decide) (by decide)⟩

theorem Store.getP_setP_ne (st : Store) (r r' : Nat) (p : StorePipeline) (h : r ≠ r') :
    (st.setP r p).getP r' = st.getP r' := by
  simp only [Store.setP, Store.getP]
  rw [List.getD_eq_getElem?_getD, List.getD_eq_getElem?_getD, List.getElem?_set_ne h]

theorem Store.getP_setP_self (st : Store) (r : Nat) (p : StorePipeline)
    (h : r < st.pipelines.length) : (st.setP r p).getP r = p := by
  simp only [Store.setP, Store.getP]
  rw [List.getD_eq_getElem?_getD, List.getElem?_set_self h]
  rfl

theorem Store.getP_allocP (st : Store) (p : StorePipeline) (r : Nat)
    (h : r < st.pipelines.length) : (st.allocP p).1.getP r = st.getP r := by
  simp only [Store.allocP, Store.getP]
  rw [List.getD_eq_getElem?_getD, List.getD_eq_getElem?_getD, List.getElem?_append_left h]

theorem Store.getD_setD_ne (st : Store) (r r' : Nat) (d : TSDataset) (h : r ≠ r') :
    (st.setD r d).getD r' = st.getD r' := by
  simp only [Store.setD, Store.getD]
  rw [List.getD_eq_getElem?_getD, List.getD_eq_getElem?_getD, List.getElem?_set_ne h]

theorem foldPreservesFrame_bind {γ : Type} (st : Store) (a b : Nat)
    (e : Except String γ) (k : γ → Except String (Store × FoldRecord))
    (hk : ∀ x, foldPreservesFrame st a b (k x)) :
    foldPreservesFrame st a b (e >>= k) := by
  cases e with
  | error msg => exact trivial
  | ok x => exact hk x

/-- C7: running one fold never mutates the pipeline template or the
original backtest dataset: `_run_fold` deep-copies the template before
fitting, so after a fold executes, the template object on the heap —
hence its model, transforms and horizon — and the dataset object passed
to `backtest` (distinct from the fold's own train slice) are unchanged. -/
theorem run_fold_preserves_template_and_dataset (st : Store)
    (selfRef trainRef testRef dsRef : Nat) (metrics : List Metric)
    (hself : selfRef < st.pipelines.length) (hds : trainRef ≠ dsRef) :
    foldPreservesFrame st selfRef dsRef (runFoldS st selfRef trainRef testRef metrics) := by
  have hlen : selfRef ≠ st.pipelines.length := by omega
  simp only [runFoldS, Store.allocP]
  apply foldPreservesFrame_bind
  intro newState
  apply foldPreservesFrame_bind
  intro fc
  show foldPreservesFrame st selfRef dsRef (Except.ok _)
  have hframe1 : ∀ (p1 p2 : StorePipeline) (d : TSDataset),
      (Store.setP (Store.setD (Store.setP
        ⟨st.pipelines ++ [st.getP selfRef], st.datasets⟩
        st.pipelines.length p1) trainRef d) st.pipelines.length p2).getP selfRef =
      st.getP selfRef := by
    intro p1 p2 d
    rw [Store.getP_setP_ne _ _ _ _ (by omega)]
    show (Store.setP ⟨st.pipelines ++ [st.getP selfRef], st.datasets⟩
      st.pipelines.length p1).getP selfRef = st.getP selfRef
    rw [Store.getP_setP_ne _ _ _ _ (by omega)]
    exact Store.getP_allocP st (st.getP selfRef) selfRef hself
  have hframe2 : ∀ (p1 p2 : StorePipeline) (d : TSDataset),
      (Store.setP (Store.setD (Store.setP
        ⟨st.pipelines ++ [st.getP selfRef], st.datasets⟩
        st.pipelines.length p1) trainRef d) st.pipelines.length p2).getD dsRef =
      st.getD dsRef := by
    intro p1 p2 d
    show (Store.setD (Store.setP ⟨st.pipelines ++ [st.getP selfRef], st.datasets⟩
      st.pipelines.length p1) trainRef d).getD dsRef = st.getD dsRef
    rw [Store.getD_setD_ne _ _ _ _ hds]
    rfl
  exact ⟨hframe1 _ _ _, by rw [hframe1], by rw [hframe1], by rw [hframe1], hframe2 _ _ _⟩

/-- Witness for `run_fold_preserves_template_and_dataset`: one template
pipeline and a three-object dataset heap (original dataset, train
slice, test slice). -/
theorem run_fold_preserves_template_and_dataset_witness :
    (0 < (⟨[⟨defaultModel, [], 1, none⟩],
        [⟨[0, 1, 2], ["s"]⟩, ⟨[0], ["s"]⟩, ⟨[1], ["s"]⟩]⟩ : Store).pipelines.length ∧
      (1 : Nat) ≠ 0) ∧
    foldPreservesFrame
      ⟨[⟨defaultModel, [], 1, none⟩], [⟨[0, 1, 2], ["s"]⟩, ⟨[0], ["s"]⟩, ⟨[1], ["s"]⟩]⟩ 0 0
      (runFoldS
        ⟨[⟨defaultModel, [], 1, none⟩], [⟨[0, 1, 2], ["s"]⟩, ⟨[0], ["s"]⟩, ⟨[1], ["s"]⟩]⟩
        0 1 2 []) :=
  ⟨⟨by decide, by decide⟩,
   run_fold_preserves_template_and_dataset
     ⟨[⟨defaultModel, [], 1, none⟩], [⟨[0, 1, 2], ["s"]⟩, ⟨[0], ["s"]⟩, ⟨[1], ["s"]⟩]⟩
     0 1 2 0 [] (by decide) (by decide)⟩
